import Mathlib

/-!
# k3s-api: workload lifecycle engine

A shallow embedding of `timer.go` (the registry of expiration timers) and of the
manifest engine and request handlers of `main.go`, with the properties of the
design document stated and settled against it.

Conventions of the embedding.

* Go `error` values are identified with their message; `nil` is `none`.
* A `*time.Timer` is the index of the timer in the list of all timers the
  process has allocated with `time.AfterFunc` (allocation order).
* Time is the monotonic clock in nanoseconds.  A timer fires through an
  explicit `fire` event, enabled once the clock has reached its deadline, so
  that any latency between deadline and execution is covered.
* Collaborators outside the repository (YAML decoding, API discovery, the
  cluster API server, `text/template`, object storage) are fields of `Env`.
-/

namespace K3sApi

/-! ## timer.go -/

/-- Go `error`, identified with the text of `err.Error()`. -/
abbrev Err := String

deriving instance DecidableEq for Except

/-- Two's complement wrap-around of a 64 bit signed integer. -/
def wrapInt64 (x : Int) : Int := (x + 2 ^ 63) % 2 ^ 64 - 2 ^ 63

/-- Value of `time.Minute` in nanoseconds. -/
def Minute : Int := 60000000000

/-- Largest `int64`. -/
def maxInt64 : Int := 2 ^ 63 - 1

/-- Deadline computed by the Go runtime for a timer of duration `d` created at
clock value `now`: immediately for a non-positive duration, saturating on
overflow. -/
def timerWhen (now d : Int) : Int :=
  if d ≤ 0 then now
  else if wrapInt64 (now + d) < 0 then maxInt64 else wrapInt64 (now + d)

/-- Life cycle of one `*time.Timer` created by `time.AfterFunc`. -/
inductive TimerStatus where
  | armed
  | stopped
  | fired
deriving DecidableEq, Repr

/-- One timer created by `time.AfterFunc(d, f)`. -/
structure Timer (α : Type) where
  deadline : Int
  f : α
  status : TimerStatus
deriving DecidableEq, Repr

/-- Method `(*time.Timer).Stop`: prevents the timer from firing; reports whether
the call stopped it (false when it had already fired or been stopped). -/
def Timer.Stop {α : Type} (t : Timer α) : Timer α × Bool :=
  if t.status = TimerStatus.armed then ({ t with status := TimerStatus.stopped }, true)
  else (t, false)

/-- Struct `PodsTimer`: the life time in minutes and the map from pod name to
timer (`map[string]*time.Timer`, a pointer being a timer index). -/
structure PodsTimer where
  LifeTime : Int
  Timers : List (String × Nat)
deriving DecidableEq, Repr

/-- Go map assignment `m[k] = v`: overwrite the entry of `k`, or add one. -/
def mapAssign (m : List (String × Nat)) (k : String) (v : Nat) : List (String × Nat) :=
  match m with
  | [] => [(k, v)]
  | (k', v') :: rest => if k' = k then (k, v) :: rest else (k', v') :: mapAssign rest k v

/-- Go map read `v, ok := m[k]`. -/
def mapGet (m : List (String × Nat)) (k : String) : Option Nat :=
  match m with
  | [] => none
  | (k', v') :: rest => if k' = k then some v' else mapGet rest k

/-- Function `Getenv(key, defaultValue)`. -/
def Getenv (environ : String → String) (key defaultValue : String) : String :=
  if environ key = "" then defaultValue else environ key

/-- Function `InitTimer`: an error stands for the `log.Fatalf` exit. -/
def InitTimer (atoi : String → Except Err Int) (environ : String → String) :
    Except String PodsTimer :=
  match atoi (Getenv environ "LIFETIME" "1") with
  | Except.error e => Except.error ("can't conver lifetime value to int: " ++ e ++ "\n")
  | Except.ok n => Except.ok { LifeTime := n, Timers := [] }

/-- The registry as the process sees it: the `PodsTimer` value, the clock, every
timer allocated so far, the callbacks executed so far (with the timer that ran
them) and the lines written through `log`. -/
structure Registry (α : Type) where
  podsTimer : PodsTimer
  now : Int
  timers : List (Timer α)
  executed : List (Nat × α)
  log : List String
deriving DecidableEq, Repr

/-- The registry right after `InitTimer` returned `t`. -/
def Registry.start {α : Type} (t : PodsTimer) : Registry α :=
  { podsTimer := t, now := 0, timers := [], executed := [], log := [] }

/-- Call `time.AfterFunc(d, f)`: allocate an armed timer, return its pointer. -/
def AfterFunc {α : Type} (r : Registry α) (d : Int) (f : α) : Registry α × Nat :=
  ({ r with timers := r.timers ++ [{ deadline := timerWhen r.now d, f := f,
                                     status := TimerStatus.armed }] },
   r.timers.length)

/-- Method `CreatePodTimer`:
`t.Timers[podName] = time.AfterFunc(time.Duration(t.LifeTime)*time.Minute, destroyFunc)`. -/
def CreatePodTimer {α : Type} (r : Registry α) (podName : String) (destroyFunc : α) :
    Registry α :=
  let (r1, p) := AfterFunc r (wrapInt64 (r.podsTimer.LifeTime * Minute)) destroyFunc
  { r1 with podsTimer := { r1.podsTimer with Timers := mapAssign r1.podsTimer.Timers podName p } }

/-- Method `StopPodTimer`: stop the timer the map holds for `podName`, if any,
and log which of the two cases applied. -/
def StopPodTimer {α : Type} (r : Registry α) (podName : String) : Registry α :=
  match mapGet r.podsTimer.Timers podName with
  | some p =>
    match r.timers[p]? with
    | some t => { r with timers := r.timers.set p t.Stop.1,
                         log := r.log ++ [podName ++ " timer stopped"] }
    | none => { r with log := r.log ++ [podName ++ " timer stopped"] }
  | none => { r with log := r.log ++ [podName ++ " timer not exists"] }

/-- The Go runtime runs the callback of timer `p`: possible only while the timer
is armed and the clock has reached its deadline. Returns the callback to run. -/
def Registry.fire {α : Type} (r : Registry α) (p : Nat) : Registry α × Option α :=
  match r.timers[p]? with
  | some t =>
    if t.status = TimerStatus.armed ∧ t.deadline ≤ r.now then
      ({ r with timers := r.timers.set p { t with status := TimerStatus.fired },
                executed := r.executed ++ [(p, t.f)] }, some t.f)
    else (r, none)
  | none => (r, none)

/-- The clock moves forward by `d` nanoseconds. -/
def Registry.advance {α : Type} (r : Registry α) (d : Nat) : Registry α :=
  { r with now := r.now + d }

/-- What can happen to the registry. -/
inductive Event (α : Type) where
  | create (podName : String) (destroyFunc : α)
  | stop (podName : String)
  | advance (d : Nat)
  | fire (p : Nat)

/-- One event applied to the registry. -/
def Registry.step {α : Type} (r : Registry α) : Event α → Registry α
  | Event.create k f => CreatePodTimer r k f
  | Event.stop k => StopPodTimer r k
  | Event.advance d => r.advance d
  | Event.fire p => (r.fire p).1

/-- A sequence of events applied in order. -/
def Registry.run {α : Type} (r : Registry α) (evs : List (Event α)) : Registry α :=
  evs.foldl Registry.step r

/-- Registry states reachable from a freshly initialised `PodsTimer`. -/
def Reachable {α : Type} (r : Registry α) : Prop :=
  ∃ (lifeTime : Int) (evs : List (Event α)),
    r = (Registry.start { LifeTime := lifeTime, Timers := [] }).run evs

/-- The callback an event registers: the one of a `CreatePodTimer` call. -/
def Event.callback {α : Type} : Event α → Option α
  | Event.create _ f => some f
  | _ => none

/-- The callbacks registered by the `CreatePodTimer` calls of a history, in order. -/
def callbacks {α : Type} (evs : List (Event α)) : List α :=
  evs.filterMap Event.callback

/-- The event is a `CreatePodTimer` call for key `k`, or time passing, or the
runtime firing a timer: anything but a `StopPodTimer` call or a call for
another key. -/
def Event.createOrTime {α : Type} (k : String) : Event α → Bool
  | Event.create k1 _ => decide (k1 = k)
  | Event.stop _ => false
  | Event.advance _ => true
  | Event.fire _ => true

/-- Pointers of the timers whose callback has been executed. -/
def Registry.firedTimers {α : Type} (r : Registry α) : List Nat :=
  r.executed.map Prod.fst

/-! ## main.go: data -/

/-- Struct `PodVariables`, the data a task template is executed with. -/
structure PodVariables where
  ClientName : String
  Flag : String
deriving DecidableEq, Repr

/-- How a call ends: it returns its `error` result (`none` is `nil`), or
`log.Fatal` prints the message and exits the process, or a run-time panic
unwinds the goroutine. -/
inductive Outcome where
  | returned (err : Option Err)
  | fatal (msg : String)
  | panicked (msg : String)
deriving DecidableEq, Repr

/-- Error of `decoder.Decode`: the end-of-stream sentinel `io.EOF`, or any other. -/
inductive DecodeError where
  | EOF
  | other (msg : String)
deriving DecidableEq, Repr

/-- One raw document of the stream (`runtime.RawExtension`). -/
abbrev RawExtension := String

/-- State of a `yamlutil.NewYAMLOrJSONDecoder` over a finite input: the documents
the successive `Decode` calls yield, then the error of the first failing call. -/
structure YAMLOrJSONDecoder where
  docs : List RawExtension
  err : DecodeError
deriving DecidableEq, Repr

/-- Values of `meta.RESTScopeName`. -/
inductive RESTScopeName where
  | Namespace
  | Root
deriving DecidableEq, Repr

/-- Type `schema.GroupKind`. -/
structure GroupKind where
  Group : String
  Kind : String
deriving DecidableEq, Repr

/-- Type `schema.GroupVersionKind`. -/
structure GroupVersionKind where
  Group : String
  Version : String
  Kind : String
deriving DecidableEq, Repr

/-- Method `GroupVersionKind.GroupKind`. -/
def GroupVersionKind.GroupKind (gvk : GroupVersionKind) : K3sApi.GroupKind :=
  { Group := gvk.Group, Kind := gvk.Kind }

/-- Type `schema.GroupVersionResource`. -/
structure GroupVersionResource where
  Group : String
  Version : String
  Resource : String
deriving DecidableEq, Repr

/-- The part of `meta.RESTMapping` the program reads. -/
structure RESTMapping where
  Resource : GroupVersionResource
  Scope : RESTScopeName
deriving DecidableEq, Repr

/-- What API discovery reports: the kinds the cluster serves, each with its
resource and scope. -/
abbrev APIGroupResources := List (GroupVersionKind × RESTMapping)

/-- The fields of a `metadata` map the program reads or writes: `name` and `ns`
are `metadata["name"]` and `metadata["namespace"]` when they hold a string
(`none` when the key is missing or holds something else). -/
structure ObjectMeta where
  name : Option String
  ns : Option String
deriving DecidableEq, Repr

/-- What `Object["metadata"]` holds: no such key, a map, or a value that is not
a map (for instance the null of a `metadata:` line without a value). -/
inductive MetadataField where
  | absent
  | map (m : ObjectMeta)
  | other
deriving DecidableEq, Repr

/-- An `unstructured.Unstructured` object, by what the program reads and writes of
it: the `metadata` field; the rest is not inspected. -/
structure Unstructured where
  metadata : MetadataField
  content : String
deriving DecidableEq, Repr

/-- An object whose `metadata` is a map with the given name and namespace. -/
def Unstructured.withMeta (name ns : Option String) (content : String) : Unstructured :=
  { metadata := MetadataField.map { name := name, ns := ns }, content := content }

/-- Method `GetNamespace`: the string under `metadata.namespace`, and the empty
string when there is none (no `metadata` map, no such key, not a string). -/
def Unstructured.GetNamespace (u : Unstructured) : String :=
  match u.metadata with
  | MetadataField.map m => m.ns.getD ""
  | _ => ""

/-- Method `SetNamespace`. An empty namespace removes the field. Otherwise the
library calls `SetNestedField(u.Object, ns, "metadata", "namespace")` and drops
its error: the field is written when `metadata` is a map, a map is made when
there is no `metadata`, and the object is left as it is when `metadata` holds
something that is not a map. -/
def Unstructured.SetNamespace (u : Unstructured) (ns : String) : Unstructured :=
  if ns = "" then
    match u.metadata with
    | MetadataField.map m => { u with metadata := MetadataField.map { m with ns := none } }
    | _ => u
  else
    match u.metadata with
    | MetadataField.absent =>
      { u with metadata := MetadataField.map { name := none, ns := some ns } }
    | MetadataField.map m => { u with metadata := MetadataField.map { m with ns := some ns } }
    | MetadataField.other => u

/-- The expression `u.Object["metadata"].(map[string]interface{})["name"].(string)`
of `DeleteManifest`: an error stands for the panic of a failing type assertion. -/
def Unstructured.assertName (u : Unstructured) : Except String String :=
  match u.metadata with
  | MetadataField.map m =>
    match m.name with
    | some n => Except.ok n
    | none => Except.error "interface conversion: interface {} is nil, not string"
  | MetadataField.absent =>
    Except.error "interface conversion: interface {} is nil, not map[string]interface {}"
  | MetadataField.other =>
    Except.error "interface conversion: interface {} is not map[string]interface {}"

/-- A `dynamic.ResourceInterface` of the dynamic client: the resource and the
namespace requests are scoped by (empty: not scoped by namespace). -/
structure ResourceInterface where
  resource : GroupVersionResource
  ns : String
deriving DecidableEq, Repr

/-- Call `api.DynamicClient.Resource(resource)`. -/
def DynamicClient.Resource (resource : GroupVersionResource) : ResourceInterface :=
  { resource := resource, ns := "" }

/-- Method `Namespace(ns)` of the client returned by `Resource`. -/
def ResourceInterface.Namespace (c : ResourceInterface) (ns : String) : ResourceInterface :=
  { c with ns := ns }

/-- A request sent to the cluster API through the dynamic client. -/
inductive ApiCall where
  | create (dri : ResourceInterface) (u : Unstructured)
  | delete (dri : ResourceInterface) (name : String)
deriving DecidableEq, Repr

/-- What the engine acts on: the cluster behind the API server, the requests
sent to it so far, and the lines written through `log`. -/
structure World (κ : Type) where
  cluster : κ
  calls : List ApiCall
  log : List String
deriving DecidableEq, Repr

/-- A parsed `*template.Template`, identified with the text it was parsed from. -/
structure Template where
  text : String
deriving DecidableEq, Repr

/-- Struct `Request`. -/
structure Request where
  ClientName : String
  TaskName : String
  Flag : String
deriving DecidableEq, Repr

/-- Struct `Response`. -/
structure Response where
  Message : String
deriving DecidableEq, Repr

/-- The collaborators outside the repository, over a cluster state `κ`.

* `Parse`, `Execute`: package `text/template`; `Execute` gives the text written
  to the buffer and the error, if any, that stopped the execution.
* `NewYAMLOrJSONDecoder`: the document stream of a manifest text.
* `Decode`: `yaml.NewDecodingSerializer(unstructured.UnstructuredJSONScheme).Decode`.
* `ToUnstructured`: `runtime.DefaultUnstructuredConverter.ToUnstructured`.
* `GetAPIGroupResources`: live API discovery; `RESTMapping`: the discovery REST mapper.
* `Create`, `Delete`: the verbs of the dynamic client against the API server.
* `GetObject`: the object storage, an error being one of `minio.New` or
  `GetObject`, the text being what `buf.ReadFrom` left in the buffer (the error of
  the read is dropped); `decodeRequest`: JSON decoding of a request body. -/
structure Env (κ : Type) where
  Parse : String → Except Err Template
  Execute : Template → PodVariables → String × Option Err
  NewYAMLOrJSONDecoder : String → YAMLOrJSONDecoder
  Decode : RawExtension → Except Err (Unstructured × GroupVersionKind)
  ToUnstructured : Unstructured → Except Err Unstructured
  GetAPIGroupResources : κ → Except Err APIGroupResources
  RESTMapping : APIGroupResources → GroupKind → String → Except Err RESTMapping
  Create : ResourceInterface → Unstructured → κ → Option Err × κ
  Delete : ResourceInterface → String → κ → Option Err × κ
  GetObject : String → String → Except Err String
  decodeRequest : String → Except Err Request

/-! ## main.go: the manifest engine -/

/-- Function `TeplateManifest`: a parse error is logged and execution still
attempted, on the nil template `Parse` returned, which panics; the error of
`Execute` is dropped and whatever was written to the buffer is returned. -/
def TeplateManifest {κ : Type} (env : Env κ) (data : String) (vars : PodVariables)
    (w : World κ) : Except String String × World κ :=
  match env.Parse data with
  | Except.error e =>
    (Except.error "runtime error: invalid memory address or nil pointer dereference",
     { w with log := w.log ++ [e] })
  | Except.ok tmpl => (Except.ok (env.Execute tmpl vars).1, w)

/-- Lines 122-130 of `ManifestAction`: default the namespace of a namespaced
object and choose the resource interface the action is given. -/
def selectResource (mapping : RESTMapping) (u : Unstructured) :
    Unstructured × ResourceInterface :=
  if mapping.Scope = RESTScopeName.Namespace then
    let u1 := if u.GetNamespace = "" then u.SetNamespace "default" else u
    (u1, (DynamicClient.Resource mapping.Resource).Namespace u1.GetNamespace)
  else
    (u, DynamicClient.Resource mapping.Resource)

/-- Lines 100-130 of `ManifestAction`, the body of the loop up to the call of
`action`: an error is one of the four `log.Fatal(err)` exits. -/
def resolve {κ : Type} (env : Env κ) (raw : RawExtension) (w : World κ) :
    Except Err (Unstructured × ResourceInterface) :=
  match env.Decode raw with
  | Except.error e => Except.error e
  | Except.ok (obj, gvk) =>
    match env.ToUnstructured obj with
    | Except.error e => Except.error e
    | Except.ok u =>
      match env.GetAPIGroupResources w.cluster with
      | Except.error e => Except.error e
      | Except.ok gr =>
        match env.RESTMapping gr gvk.GroupKind gvk.Version with
        | Except.error e => Except.error e
        | Except.ok mapping => Except.ok (selectResource mapping u)

/-- The per-document callback of `ManifestAction`. -/
abbrev Action (κ : Type) := Unstructured → ResourceInterface → World κ → Outcome × World κ

/-- Record of one call of `action` (kept for the statements only): the document,
the arguments, the world before, the result and the world after. -/
structure Invocation (κ : Type) where
  doc : RawExtension
  obj : Unstructured
  dri : ResourceInterface
  pre : World κ
  result : Outcome
  post : World κ
deriving DecidableEq

/-- Result of a manifest run: how it ended, the world it left, and the calls of
`action` it made, in order. -/
structure ManifestRun (κ : Type) where
  outcome : Outcome
  world : World κ
  trace : List (Invocation κ)
deriving DecidableEq

/-- The `for` loop of `ManifestAction` over the documents the decoder still
holds. When `decoder.Decode` returns an error, whichever it is, the loop is left
by `break` and `nil` is returned. -/
def decodeLoop {κ : Type} (env : Env κ) (action : Action κ) (err : DecodeError) :
    List RawExtension → World κ → ManifestRun κ
  | [], w => { outcome := Outcome.returned none, world := w, trace := [] }
  | raw :: rest, w =>
    match resolve env raw w with
    | Except.error e => { outcome := Outcome.fatal e, world := w, trace := [] }
    | Except.ok (u, dri) =>
      let inv : Invocation κ :=
        { doc := raw, obj := u, dri := dri, pre := w,
          result := (action u dri w).1, post := (action u dri w).2 }
      match (action u dri w).1 with
      | Outcome.returned none =>
        let r := decodeLoop env action err rest (action u dri w).2
        { r with trace := inv :: r.trace }
      | o => { outcome := o, world := (action u dri w).2, trace := [inv] }

/-- Method `ManifestAction` on an already opened decoder. -/
def ManifestActionOn {κ : Type} (env : Env κ) (action : Action κ)
    (decoder : YAMLOrJSONDecoder) (w : World κ) : ManifestRun κ :=
  decodeLoop env action decoder.err decoder.docs w

/-- Method `ManifestAction`. -/
def ManifestAction {κ : Type} (env : Env κ) (data : String) (action : Action κ)
    (w : World κ) : ManifestRun κ :=
  ManifestActionOn env action (env.NewYAMLOrJSONDecoder data) w

/-- The callback of `ApplyManifest`: `dri.Create` of the object. -/
def createAction {κ : Type} (env : Env κ) : Action κ := fun u dri w =>
  (Outcome.returned (env.Create dri u w.cluster).1,
   { w with cluster := (env.Create dri u w.cluster).2,
            calls := w.calls ++ [ApiCall.create dri u] })

/-- The callback of `DeleteManifest`: the two type assertions that extract the
name panic when there is no string name; otherwise `dri.Delete` of the name. -/
def deleteAction {κ : Type} (env : Env κ) : Action κ := fun u dri w =>
  match u.assertName with
  | Except.error p => (Outcome.panicked p, w)
  | Except.ok name =>
    (Outcome.returned (env.Delete dri name w.cluster).1,
     { w with cluster := (env.Delete dri name w.cluster).2,
              calls := w.calls ++ [ApiCall.delete dri name] })

/-- Method `ApplyManifest`. -/
def ApplyManifest {κ : Type} (env : Env κ) (manifest : String) (vars : PodVariables)
    (w : World κ) : ManifestRun κ :=
  match TeplateManifest env manifest vars w with
  | (Except.error p, w1) => { outcome := Outcome.panicked p, world := w1, trace := [] }
  | (Except.ok manifestData, w1) => ManifestAction env manifestData (createAction env) w1

/-- Method `DeleteManifest`. -/
def DeleteManifest {κ : Type} (env : Env κ) (manifest : String) (vars : PodVariables)
    (w : World κ) : ManifestRun κ :=
  match TeplateManifest env manifest vars w with
  | (Except.error p, w1) => { outcome := Outcome.panicked p, world := w1, trace := [] }
  | (Except.ok manifestData, w1) => ManifestAction env manifestData (deleteAction env) w1

/-- The invocations follow one another from world `w` to world `w1`: each starts
in the world the previous one left, and nothing else changes the world. -/
def Threaded {κ : Type} : World κ → List (Invocation κ) → World κ → Prop
  | w, [], w1 => w1 = w
  | w, c :: cs, w1 => c.pre = w ∧ Threaded c.post cs w1

/-- Every document decodes and resolves in the world in which the loop reaches
it: the first one in `w`, each next one in the world the action left, for as long
as the action returns `nil`. Documents the loop never reaches are not looked at. -/
def resolvesAlong {κ : Type} (env : Env κ) (action : Action κ) :
    List RawExtension → World κ → Bool
  | [], _ => true
  | raw :: rest, w =>
    match resolve env raw w with
    | Except.error _ => false
    | Except.ok (u, dri) =>
      if (action u dri w).1 = Outcome.returned none then
        resolvesAlong env action rest (action u dri w).2
      else true

/-! ## main.go: the request handlers -/

/-- Function `GetConfig`: fetch `<task>.yml` from bucket `tasks`; an error
stands for the `log.Fatalln` exit. -/
def GetConfig {κ : Type} (env : Env κ) (task : String) : Except String String :=
  match env.GetObject "tasks" (task ++ ".yml") with
  | Except.error e => Except.error e
  | Except.ok text => Except.ok text

/-- The closure `destroyFunc` built by `Handlers.Run`, by what it captures. -/
structure DestroyFunc where
  manifest : String
  pvars : PodVariables
  podName : String
deriving DecidableEq, Repr

/-- The process: the world the engine acts on and the global `podsTimer`. -/
structure System (κ : Type) where
  world : World κ
  podsTimer : Registry DestroyFunc
deriving DecidableEq, Repr

/-- How a request handler ends: it writes a response, or the process exits
(`log.Fatal`), or it panics (the HTTP server then drops the connection). -/
inductive HandlerOutcome where
  | responded (resp : Response)
  | fatal (msg : String)
  | panicked (msg : String)
deriving DecidableEq, Repr

/-- Result of a request handler. -/
structure HandlerResult (κ : Type) where
  outcome : HandlerOutcome
  sys : System κ
deriving DecidableEq, Repr

/-- Method `Handlers.Run`. -/
def Handlers.Run {κ : Type} (env : Env κ) (sys : System κ) (body : String) :
    HandlerResult κ :=
  match env.decodeRequest body with
  | Except.error e => { outcome := HandlerOutcome.responded { Message := e }, sys := sys }
  | Except.ok req =>
    match GetConfig env req.TaskName with
    | Except.error m => { outcome := HandlerOutcome.fatal m, sys := sys }
    | Except.ok manifest =>
      let pvars : PodVariables := { ClientName := req.ClientName, Flag := req.Flag }
      let r := ApplyManifest env manifest pvars sys.world
      match r.outcome with
      | Outcome.returned (some e) =>
        { outcome := HandlerOutcome.responded { Message := e },
          sys := { sys with world := r.world } }
      | Outcome.fatal m =>
        { outcome := HandlerOutcome.fatal m, sys := { sys with world := r.world } }
      | Outcome.panicked m =>
        { outcome := HandlerOutcome.panicked m, sys := { sys with world := r.world } }
      | Outcome.returned none =>
        let podName := req.TaskName ++ "-" ++ req.ClientName
        let destroyFunc : DestroyFunc :=
          { manifest := manifest, pvars := pvars, podName := podName }
        { outcome := HandlerOutcome.responded { Message := "ok" },
          sys := { world := r.world,
                   podsTimer := CreatePodTimer sys.podsTimer podName destroyFunc } }

/-- Method `Handlers.Stop`. -/
def Handlers.Stop {κ : Type} (env : Env κ) (sys : System κ) (body : String) :
    HandlerResult κ :=
  match env.decodeRequest body with
  | Except.error e => { outcome := HandlerOutcome.responded { Message := e }, sys := sys }
  | Except.ok req =>
    match GetConfig env req.TaskName with
    | Except.error m => { outcome := HandlerOutcome.fatal m, sys := sys }
    | Except.ok manifest =>
      let pvars : PodVariables := { ClientName := req.ClientName, Flag := req.Flag }
      let r := DeleteManifest env manifest pvars sys.world
      match r.outcome with
      | Outcome.returned (some e) =>
        { outcome := HandlerOutcome.responded { Message := e },
          sys := { sys with world := r.world } }
      | Outcome.fatal m =>
        { outcome := HandlerOutcome.fatal m, sys := { sys with world := r.world } }
      | Outcome.panicked m =>
        { outcome := HandlerOutcome.panicked m, sys := { sys with world := r.world } }
      | Outcome.returned none =>
        { outcome := HandlerOutcome.responded { Message := "ok" },
          sys := { world := r.world,
                   podsTimer := StopPodTimer sys.podsTimer
                     (req.TaskName ++ "-" ++ req.ClientName) } }

/-- Body of the closure `destroyFunc`: `DeleteManifest`, an error being logged
and not propagated. -/
def DestroyFunc.call {κ : Type} (env : Env κ) (d : DestroyFunc) (w : World κ) :
    Outcome × World κ :=
  let r := DeleteManifest env d.manifest d.pvars w
  match r.outcome with
  | Outcome.returned (some e) =>
    (Outcome.returned none,
     { r.world with log := r.world.log ++
         ["destroy pod " ++ d.podName ++ " for error: " ++ e] })
  | o => (o, r.world)

/-- The runtime fires timer `p` of the global registry and runs its callback. -/
def System.fire {κ : Type} (env : Env κ) (sys : System κ) (p : Nat) :
    Outcome × System κ :=
  match sys.podsTimer.fire p with
  | (reg, some d) =>
    ((d.call env sys.world).1, { world := (d.call env sys.world).2, podsTimer := reg })
  | (reg, none) => (Outcome.returned none, { world := sys.world, podsTimer := reg })

/-! ## A small cluster for the concrete cases

A cluster that serves pods (namespaced) and namespaces (cluster scoped), holds
the objects created in it by endpoint and name, and a handful of manifests. -/

/-- State of the sample cluster: the objects it holds. -/
abbrev SampleCluster := List (ResourceInterface × String)

/-- The un-namespaced endpoint of custom resource definitions. -/
def crdRoot : ResourceInterface :=
  { resource := { Group := "apiextensions.k8s.io", Version := "v1",
                  Resource := "customresourcedefinitions" }, ns := "" }

/-- What discovery adds once the definition `labs.potee.dev` is installed: the
namespaced kind `Lab`. -/
def labDiscovery : APIGroupResources :=
  [ ({ Group := "potee.dev", Version := "v1", Kind := "Lab" },
     { Resource := { Group := "potee.dev", Version := "v1", Resource := "labs" },
       Scope := RESTScopeName.Namespace }) ]

/-- Discovery of the sample cluster before any custom resource is defined. -/
def sampleDiscovery : APIGroupResources :=
  [ ({ Group := "", Version := "v1", Kind := "Pod" },
     { Resource := { Group := "", Version := "v1", Resource := "pods" },
       Scope := RESTScopeName.Namespace }),
    ({ Group := "", Version := "v1", Kind := "Namespace" },
     { Resource := { Group := "", Version := "v1", Resource := "namespaces" },
       Scope := RESTScopeName.Root }),
    ({ Group := "apiextensions.k8s.io", Version := "v1", Kind := "CustomResourceDefinition" },
     { Resource := { Group := "apiextensions.k8s.io", Version := "v1",
                     Resource := "customresourcedefinitions" },
       Scope := RESTScopeName.Root }) ]

/-- Live discovery of the sample cluster: the kind `Lab` is served once its
definition has been created. -/
def sampleGetAPIGroupResources (c : SampleCluster) : Except Err APIGroupResources :=
  Except.ok (sampleDiscovery ++ if (crdRoot, "labs.potee.dev") ∈ c then labDiscovery else [])

/-- REST mapper over a discovery table. -/
def sampleRESTMapping (gr : APIGroupResources) (gk : GroupKind) (version : String) :
    Except Err RESTMapping :=
  match gr.find? (fun e => e.1.Group = gk.Group ∧ e.1.Kind = gk.Kind ∧ e.1.Version = version) with
  | some e => Except.ok e.2
  | none =>
    Except.error ("no matches for kind \"" ++ gk.Kind ++ "\" in version \"" ++ version ++ "\"")

/-- Create in the sample cluster: a name is required and must be free. -/
def sampleCreate (dri : ResourceInterface) (u : Unstructured) (c : SampleCluster) :
    Option Err × SampleCluster :=
  match u.assertName with
  | Except.error _ => (some "name or generateName is required", c)
  | Except.ok n =>
    if (dri, n) ∈ c then (some (dri.resource.Resource ++ " \"" ++ n ++ "\" already exists"), c)
    else (none, c ++ [(dri, n)])

/-- Delete in the sample cluster: the object must exist. -/
def sampleDelete (dri : ResourceInterface) (name : String) (c : SampleCluster) :
    Option Err × SampleCluster :=
  if (dri, name) ∈ c then (none, c.filter (fun o => o ≠ (dri, name)))
  else (some (dri.resource.Resource ++ " \"" ++ name ++ "\" not found"), c)

/-- A pod document named `n`. -/
def podDoc (n : String) : String :=
  "apiVersion: v1\nkind: Pod\nmetadata:\n  name: " ++ n ++ "\n"

/-- A document of the mistyped kind `Podd`. -/
def poddDoc (n : String) : String :=
  "apiVersion: v1\nkind: Podd\nmetadata:\n  name: " ++ n ++ "\n"

/-- A namespace document carrying a namespace field. -/
def nsDoc : String :=
  "apiVersion: v1\nkind: Namespace\nmetadata:\n  name: lab\n  namespace: potee\n"

/-- A pod document with an explicit namespace. -/
def podInDoc : String :=
  "apiVersion: v1\nkind: Pod\nmetadata:\n  name: web\n  namespace: potee\n"

/-- A pod document cut right after `name: `, so without a name. -/
def namelessDoc : String :=
  "apiVersion: v1\nkind: Pod\nmetadata:\n  name: "

/-- A pod document whose `metadata:` line has no value: the field holds null. -/
def bareDoc : String := "apiVersion: v1\nkind: Pod\nmetadata:\n"

/-- The definition of the custom resource `Lab`. -/
def crdDoc : String :=
  "apiVersion: apiextensions.k8s.io/v1\nkind: CustomResourceDefinition\nmetadata:\n  name: labs.potee.dev\n"

/-- A custom resource of kind `Lab`. -/
def labDoc : String :=
  "apiVersion: potee.dev/v1\nkind: Lab\nmetadata:\n  name: one\n"

/-- A text that is not YAML: a flow sequence left open. -/
def brokenYaml : String := "kind: ["

/-- Three documents, the second of a kind the cluster does not serve. -/
def manifestABC : String := podDoc "a" ++ "---\n" ++ poddDoc "b" ++ "---\n" ++ podDoc "c"

/-- A template of two pods, the second naming a field `PodVariables` lacks. -/
def templateHalf : String := podDoc "\x7b\x7b.ClientName\x7d\x7d" ++ "---\n" ++ podDoc "\x7b\x7b.Missing\x7d\x7d"

/-- A template with an action left open. -/
def templateOpen : String := podDoc "\x7b\x7b.ClientName"

/-- The pod object named `n`, namespace not set. -/
def podObj (n : String) : Unstructured := Unstructured.withMeta (some n) none "Pod"

/-- The group, version and kind of a core `v1` object. -/
def coreV1 (kind : String) : GroupVersionKind := { Group := "", Version := "v1", Kind := kind }

/-- Document streams of the sample manifests. -/
def sampleStreams : List (String × YAMLOrJSONDecoder) :=
  [ (manifestABC, { docs := [podDoc "a", poddDoc "b", podDoc "c"], err := DecodeError.EOF }),
    (podDoc "alice", { docs := [podDoc "alice"], err := DecodeError.EOF }),
    (podDoc "alice" ++ "---\n" ++ namelessDoc,
      { docs := [podDoc "alice", namelessDoc], err := DecodeError.EOF }),
    (nsDoc ++ "---\n" ++ podInDoc, { docs := [nsDoc, podInDoc], err := DecodeError.EOF }),
    (bareDoc, { docs := [bareDoc], err := DecodeError.EOF }),
    (crdDoc ++ "---\n" ++ labDoc, { docs := [crdDoc, labDoc], err := DecodeError.EOF }),
    (brokenYaml,
      { docs := [], err := DecodeError.other "yaml: line 1: did not find expected node content" }) ]

/-- Objects of the sample documents. -/
def sampleObjects : List (RawExtension × (Unstructured × GroupVersionKind)) :=
  [ (podDoc "a", (podObj "a", coreV1 "Pod")),
    (poddDoc "b", (Unstructured.withMeta (some "b") none "Podd", coreV1 "Podd")),
    (podDoc "c", (podObj "c", coreV1 "Pod")),
    (podDoc "alice", (podObj "alice", coreV1 "Pod")),
    (namelessDoc, (Unstructured.withMeta none none "Pod", coreV1 "Pod")),
    (nsDoc, (Unstructured.withMeta (some "lab") (some "potee") "Namespace", coreV1 "Namespace")),
    (podInDoc, (Unstructured.withMeta (some "web") (some "potee") "Pod", coreV1 "Pod")),
    (bareDoc, ({ metadata := MetadataField.other, content := "Pod" }, coreV1 "Pod")),
    (crdDoc, (Unstructured.withMeta (some "labs.potee.dev") none "CustomResourceDefinition",
      { Group := "apiextensions.k8s.io", Version := "v1", Kind := "CustomResourceDefinition" })),
    (labDoc, (Unstructured.withMeta (some "one") none "Lab",
      { Group := "potee.dev", Version := "v1", Kind := "Lab" })) ]

/-- Association list lookup with string keys. -/
def tableGet {β : Type} (t : List (String × β)) (k : String) : Option β :=
  match t with
  | [] => none
  | (k', v) :: rest => if k' = k then some v else tableGet rest k

/-- Template execution of the sample environment: the one-pod template renders
the client name; `templateHalf` stops at the unknown field, having written
everything before it; any other text holds no action and renders as itself. -/
def sampleExecute (tmpl : Template) (vars : PodVariables) : String × Option Err :=
  if tmpl.text = podDoc "\x7b\x7b.ClientName\x7d\x7d" then (podDoc vars.ClientName, none)
  else if tmpl.text = templateHalf then
    (podDoc vars.ClientName ++ "---\n" ++ namelessDoc,
     some "can't evaluate field Missing in type main.PodVariables")
  else (tmpl.text, none)

/-- The sample environment. -/
def sampleEnv : Env SampleCluster where
  Parse := fun text =>
    if text = templateOpen then Except.error "template: task:4: unclosed action"
    else Except.ok { text := text }
  Execute := sampleExecute
  NewYAMLOrJSONDecoder := fun data =>
    (tableGet sampleStreams data).getD { docs := [], err := DecodeError.EOF }
  Decode := fun raw =>
    match tableGet sampleObjects raw with
    | some x => Except.ok x
    | none => Except.error "Object 'Kind' is missing"
  ToUnstructured := fun u => Except.ok u
  GetAPIGroupResources := sampleGetAPIGroupResources
  RESTMapping := sampleRESTMapping
  Create := sampleCreate
  Delete := sampleDelete
  GetObject := fun _ objName =>
    if objName = "scan.yml" then Except.ok (podDoc "\x7b\x7b.ClientName\x7d\x7d")
    else Except.ok ""
  decodeRequest := fun body =>
    if body = "\x7b\"client\":\"alice\",\"task\":\"scan\"\x7d" then
      Except.ok { ClientName := "alice", TaskName := "scan", Flag := "" }
    else Except.error "unexpected end of JSON input"

/-- An empty world over an empty sample cluster. -/
def emptyWorld : World SampleCluster := { cluster := [], calls := [], log := [] }

/-- The endpoint of pods in namespace `default`. -/
def podsDefault : ResourceInterface :=
  { resource := { Group := "", Version := "v1", Resource := "pods" }, ns := "default" }

/-- The body of a request of client `alice` for task `scan`. -/
def scanAlice : String := "\x7b\"client\":\"alice\",\"task\":\"scan\"\x7d"

/-- A freshly started process over the empty sample cluster, life time one minute. -/
def sampleSystem : System SampleCluster :=
  { world := emptyWorld, podsTimer := Registry.start { LifeTime := 1, Timers := [] } }

/-- The clock of the process moves forward by `d` nanoseconds. -/
def System.advance {κ : Type} (sys : System κ) (d : Nat) : System κ :=
  { sys with podsTimer := sys.podsTimer.advance d }

/-- A registry with life time one minute in which `scan-alice` was created twice,
ten seconds apart. -/
def twiceCreated : Registry String :=
  (Registry.start { LifeTime := 1, Timers := [] }).run
    [Event.create "scan-alice" "destroy-1", Event.advance 10000000000,
     Event.create "scan-alice" "destroy-2"]

/-- The sample variables: client `alice`, no flag. -/
def aliceVars : PodVariables := { ClientName := "alice", Flag := "" }

/-- A process whose registry holds an armed timer for `scan-alice` while the
cluster holds no pod (the pod was removed behind the back of the process). -/
def orphanedTimerSystem : System SampleCluster :=
  { world := emptyWorld, podsTimer := (Handlers.Run sampleEnv sampleSystem scanAlice).sys.podsTimer }

/-- Timer `p` exists and is not armed. -/
def Disarmed {α : Type} (r : Registry α) (p : Nat) : Prop :=
  ∃ t, r.timers[p]? = some t ∧ t.status ≠ TimerStatus.armed

/-- Timer `p` exists, carries callback `g`, has not been stopped, and if it has
fired then `g` has been executed by it. -/
def NotStopped {α : Type} (r : Registry α) (p : Nat) (g : α) : Prop :=
  ∃ t, r.timers[p]? = some t ∧ t.f = g ∧ t.status ≠ TimerStatus.stopped ∧
    (t.status = TimerStatus.fired → (p, g) ∈ r.executed)

/-- Every entry of the map designates an allocated timer. -/
def EntriesValid {α : Type} (r : Registry α) : Prop :=
  ∀ k p, mapGet r.podsTimer.Timers k = some p → p < r.timers.length

/-! ## Lemmas on the timer map and the timer list -/

theorem mapGet_mapAssign (m : List (String × Nat)) (k k' : String) (v : Nat) :
    mapGet (mapAssign m k v) k' = if k' = k then some v else mapGet m k' := by
  induction m with
  | nil =>
    by_cases h : k' = k
    · simp [mapAssign, mapGet, h]
    · have h' : ¬ k = k' := fun e => h e.symm
      simp [mapAssign, mapGet, h, h']
  | cons e rest ih =>
    obtain ⟨a, b⟩ := e
    by_cases hak : a = k
    · by_cases h : k' = k
      · simp [mapAssign, mapGet, hak, h]
      · have h' : ¬ k = k' := fun e => h e.symm
        simp [mapAssign, mapGet, hak, h, h']
    · by_cases h : k' = k
      · subst h
        simp [mapAssign, mapGet, hak, ih]
      · by_cases hak' : a = k'
        · simp [mapAssign, mapGet, hak, hak', h]
        · simp [mapAssign, mapGet, hak, hak', h, ih]

theorem CreatePodTimer_timers {α : Type} (r : Registry α) (k : String) (f : α) :
    (CreatePodTimer r k f).timers = r.timers ++
      [{ deadline := timerWhen r.now (wrapInt64 (r.podsTimer.LifeTime * Minute)), f := f,
         status := TimerStatus.armed }] := rfl

theorem CreatePodTimer_Timers {α : Type} (r : Registry α) (k : String) (f : α) :
    (CreatePodTimer r k f).podsTimer.Timers = mapAssign r.podsTimer.Timers k r.timers.length :=
  rfl

theorem CreatePodTimer_executed {α : Type} (r : Registry α) (k : String) (f : α) :
    (CreatePodTimer r k f).executed = r.executed := rfl

theorem StopPodTimer_eq {α : Type} (r : Registry α) (k : String) :
    StopPodTimer r k =
      { r with timers := (StopPodTimer r k).timers, log := (StopPodTimer r k).log } := by
  cases h1 : mapGet r.podsTimer.Timers k with
  | none => simp only [StopPodTimer, h1]
  | some p =>
    cases h2 : r.timers[p]? with
    | none => simp only [StopPodTimer, h1, h2]
    | some t => simp only [StopPodTimer, h1, h2]

theorem StopPodTimer_timers {α : Type} (r : Registry α) (k : String) (p : Nat) (t : Timer α)
    (h1 : mapGet r.podsTimer.Timers k = some p) (h2 : r.timers[p]? = some t) :
    (StopPodTimer r k).timers = r.timers.set p t.Stop.1 := by
  simp only [StopPodTimer, h1, h2]

theorem StopPodTimer_timers_none {α : Type} (r : Registry α) (k : String)
    (h1 : mapGet r.podsTimer.Timers k = none) :
    (StopPodTimer r k).timers = r.timers := by
  simp only [StopPodTimer, h1]

theorem StopPodTimer_timers_dangling {α : Type} (r : Registry α) (k : String) (p : Nat)
    (h1 : mapGet r.podsTimer.Timers k = some p) (h2 : r.timers[p]? = none) :
    (StopPodTimer r k).timers = r.timers := by
  simp only [StopPodTimer, h1, h2]

theorem StopPodTimer_podsTimer {α : Type} (r : Registry α) (k : String) :
    (StopPodTimer r k).podsTimer = r.podsTimer := by
  rw [StopPodTimer_eq]

theorem StopPodTimer_executed {α : Type} (r : Registry α) (k : String) :
    (StopPodTimer r k).executed = r.executed := by
  rw [StopPodTimer_eq]

theorem StopPodTimer_length {α : Type} (r : Registry α) (k : String) :
    (StopPodTimer r k).timers.length = r.timers.length := by
  cases h1 : mapGet r.podsTimer.Timers k with
  | none => rw [StopPodTimer_timers_none r k h1]
  | some p =>
    cases h2 : r.timers[p]? with
    | none => rw [StopPodTimer_timers_dangling r k p h1 h2]
    | some t => rw [StopPodTimer_timers r k p t h1 h2]; simp

theorem fire_podsTimer {α : Type} (r : Registry α) (p : Nat) :
    (r.fire p).1.podsTimer = r.podsTimer := by
  unfold Registry.fire
  cases r.timers[p]? with
  | none => rfl
  | some t =>
    by_cases c : t.status = TimerStatus.armed ∧ t.deadline ≤ r.now
    · simp [c]
    · simp [c]

theorem fire_length {α : Type} (r : Registry α) (p : Nat) :
    (r.fire p).1.timers.length = r.timers.length := by
  unfold Registry.fire
  cases r.timers[p]? with
  | none => rfl
  | some t =>
    by_cases c : t.status = TimerStatus.armed ∧ t.deadline ≤ r.now
    · simp [c]
    · simp [c]

theorem Stop_status {α : Type} (t : Timer α) : t.Stop.1.status ≠ TimerStatus.armed := by
  unfold Timer.Stop
  by_cases c : t.status = TimerStatus.armed
  · simp [c]
  · simp [c]

theorem Stop_of_not_armed {α : Type} (t : Timer α) (h : t.status ≠ TimerStatus.armed) :
    t.Stop.1 = t := by
  simp [Timer.Stop, h]

/-- After `StopPodTimer(k)` the timer the map holds for `k` is not armed. -/
theorem StopPodTimer_disarms {α : Type} (r : Registry α) (k : String) (p : Nat)
    (hk : mapGet r.podsTimer.Timers k = some p) (hp : p < r.timers.length) :
    Disarmed (StopPodTimer r k) p := by
  have ht : r.timers[p]? = some r.timers[p] := List.getElem?_eq_getElem hp
  refine ⟨(r.timers[p]).Stop.1, ?_, Stop_status _⟩
  rw [StopPodTimer_timers r k p _ hk ht]
  simp [List.getElem?_set, hp]

/-- A timer that is not armed stays so, and is not executed, whatever happens. -/
theorem Disarmed_step {α : Type} (r : Registry α) (p : Nat) (ev : Event α)
    (hd : Disarmed r p) :
    Disarmed (r.step ev) p ∧ (p ∉ r.firedTimers → p ∉ (r.step ev).firedTimers) := by
  obtain ⟨t, ht, hs⟩ := hd
  have hp : p < r.timers.length := by
    by_contra hc
    have : r.timers[p]? = none := List.getElem?_eq_none (Nat.le_of_not_lt hc)
    rw [this] at ht
    cases ht
  cases ev with
  | create k f =>
    refine ⟨⟨t, ?_, hs⟩, fun h => h⟩
    show (CreatePodTimer r k f).timers[p]? = some t
    rw [CreatePodTimer_timers, List.getElem?_append_left hp]
    exact ht
  | stop k =>
    refine ⟨?_, ?_⟩
    · show Disarmed (StopPodTimer r k) p
      refine ⟨t, ?_, hs⟩
      cases hq : mapGet r.podsTimer.Timers k with
      | none => rw [StopPodTimer_timers_none r k hq]; exact ht
      | some q =>
        cases hqt : r.timers[q]? with
        | none => rw [StopPodTimer_timers_dangling r k q hq hqt]; exact ht
        | some tq =>
          rw [StopPodTimer_timers r k q tq hq hqt]
          by_cases e : q = p
          · subst e
            rw [ht] at hqt
            cases hqt
            rw [Stop_of_not_armed t hs]
            simp [List.getElem?_set, hp, ht]
          · simp [List.getElem?_set, e, ht]
    · intro h
      show p ∉ (StopPodTimer r k).firedTimers
      unfold Registry.firedTimers
      rw [StopPodTimer_executed]
      exact h
  | advance d => exact ⟨⟨t, ht, hs⟩, fun h => h⟩
  | fire q =>
    show Disarmed (r.fire q).1 p ∧ (p ∉ r.firedTimers → p ∉ (r.fire q).1.firedTimers)
    unfold Registry.fire
    cases hqt : r.timers[q]? with
    | none => exact ⟨⟨t, ht, hs⟩, fun h => h⟩
    | some tq =>
      by_cases c : tq.status = TimerStatus.armed ∧ tq.deadline ≤ r.now
      · have e : q ≠ p := by
          intro e
          subst e
          rw [ht] at hqt
          cases hqt
          exact hs c.1
        simp only [c, and_self, if_true]
        refine ⟨⟨t, ?_, hs⟩, ?_⟩
        · simp [List.getElem?_set, e, ht]
        · intro h
          simp only [Registry.firedTimers, List.map_append, List.map_cons, List.map_nil,
            List.mem_append, List.mem_singleton, not_or]
          exact ⟨h, fun e' => e e'.symm⟩
      · simp only [c, if_false]
        exact ⟨⟨t, ht, hs⟩, fun h => h⟩

theorem Disarmed_run {α : Type} (evs : List (Event α)) (r : Registry α) (p : Nat)
    (hd : Disarmed r p) (hn : p ∉ r.firedTimers) :
    Disarmed (r.run evs) p ∧ p ∉ (r.run evs).firedTimers := by
  induction evs generalizing r with
  | nil => exact ⟨hd, hn⟩
  | cons ev rest ih =>
    have h := Disarmed_step r p ev hd
    exact ih (r.step ev) h.1 (h.2 hn)

theorem EntriesValid_step {α : Type} (r : Registry α) (ev : Event α) (h : EntriesValid r) :
    EntriesValid (r.step ev) := by
  cases ev with
  | create k f =>
    intro k' p hk'
    have hk2 : mapGet (mapAssign r.podsTimer.Timers k r.timers.length) k' = some p := hk'
    rw [mapGet_mapAssign] at hk2
    show p < (CreatePodTimer r k f).timers.length
    rw [CreatePodTimer_timers]
    simp only [List.length_append, List.length_singleton]
    by_cases e : k' = k
    · simp only [e, if_true, Option.some.injEq] at hk2
      omega
    · simp only [e, if_false] at hk2
      have := h k' p hk2
      omega
  | stop k =>
    intro k' p hk'
    show p < (StopPodTimer r k).timers.length
    rw [StopPodTimer_length]
    have hk2 : mapGet (StopPodTimer r k).podsTimer.Timers k' = some p := hk'
    rw [StopPodTimer_podsTimer] at hk2
    exact h k' p hk2
  | advance d => exact h
  | fire q =>
    intro k' p hk'
    show p < (r.fire q).1.timers.length
    rw [fire_length]
    have hk2 : mapGet (r.fire q).1.podsTimer.Timers k' = some p := hk'
    rw [fire_podsTimer] at hk2
    exact h k' p hk2

theorem EntriesValid_run {α : Type} (evs : List (Event α)) (r : Registry α)
    (h : EntriesValid r) : EntriesValid (r.run evs) := by
  induction evs generalizing r with
  | nil => exact h
  | cons ev rest ih => exact ih (r.step ev) (EntriesValid_step r ev h)

theorem Reachable_EntriesValid {α : Type} (r : Registry α) (h : Reachable r) :
    EntriesValid r := by
  obtain ⟨n, evs, e⟩ := h
  rw [e]
  apply EntriesValid_run
  intro k p hk
  simp [Registry.start, mapGet] at hk

/-- No event removes a key from the map. -/
theorem key_kept_step {α : Type} (r : Registry α) (ev : Event α) (k : String)
    (h : (mapGet r.podsTimer.Timers k).isSome) :
    (mapGet (r.step ev).podsTimer.Timers k).isSome := by
  cases ev with
  | create k' f =>
    show (mapGet (mapAssign r.podsTimer.Timers k' r.timers.length) k).isSome
    rw [mapGet_mapAssign]
    by_cases e : k = k'
    · simp [e]
    · simp [e, h]
  | stop k' =>
    show (mapGet (StopPodTimer r k').podsTimer.Timers k).isSome
    rw [StopPodTimer_podsTimer]
    exact h
  | advance d => exact h
  | fire q =>
    show (mapGet (r.fire q).1.podsTimer.Timers k).isSome
    rw [fire_podsTimer]
    exact h

theorem key_kept_run {α : Type} (evs : List (Event α)) (r : Registry α) (k : String)
    (h : (mapGet r.podsTimer.Timers k).isSome) :
    (mapGet (r.run evs).podsTimer.Timers k).isSome := by
  induction evs generalizing r with
  | nil => exact h
  | cons ev rest ih => exact ih (r.step ev) (key_kept_step r ev k h)

theorem getElem?_some_lt {β : Type} (l : List β) (p : Nat) (t : β) (h : l[p]? = some t) :
    p < l.length := by
  by_contra hc
  rw [List.getElem?_eq_none (Nat.le_of_not_lt hc)] at h
  cases h

/-- An armed timer whose deadline the clock has reached fires and executes its
callback when the runtime gets to it. -/
theorem fire_armed {α : Type} (r : Registry α) (p : Nat) (t : Timer α)
    (ht : r.timers[p]? = some t) (hs : t.status = TimerStatus.armed)
    (hd : t.deadline ≤ r.now) :
    (r.fire p).2 = some t.f ∧ (r.fire p).1.executed = r.executed ++ [(p, t.f)] := by
  unfold Registry.fire
  rw [ht]
  simp only [hs, hd, and_self, if_true]

/-- A create, a delay or a firing leaves a timer that was not stopped not stopped. -/
theorem NotStopped_step {α : Type} (r : Registry α) (k : String) (p : Nat) (g : α)
    (ev : Event α) (hev : ev.createOrTime k = true) (h : NotStopped r p g) :
    NotStopped (r.step ev) p g := by
  obtain ⟨t, ht, hf, hs, hx⟩ := h
  have hp : p < r.timers.length := getElem?_some_lt _ _ _ ht
  cases ev with
  | create k1 f =>
    refine ⟨t, ?_, hf, hs, hx⟩
    show (CreatePodTimer r k1 f).timers[p]? = some t
    rw [CreatePodTimer_timers, List.getElem?_append_left hp]
    exact ht
  | stop k1 => simp [Event.createOrTime] at hev
  | advance d => exact ⟨t, ht, hf, hs, hx⟩
  | fire q =>
    show NotStopped (r.fire q).1 p g
    unfold Registry.fire
    cases hqt : r.timers[q]? with
    | none => exact ⟨t, ht, hf, hs, hx⟩
    | some tq =>
      by_cases c : tq.status = TimerStatus.armed ∧ tq.deadline ≤ r.now
      · simp only [c, and_self, if_true]
        by_cases e : q = p
        · subst e
          rw [ht] at hqt
          cases hqt
          refine ⟨{ t with status := TimerStatus.fired }, ?_, hf, ?_, ?_⟩
          · simp [List.getElem?_set, hp]
          · intro h; cases h
          · intro _
            rw [hf]
            simp
        · refine ⟨t, ?_, hf, hs, ?_⟩
          · simp [List.getElem?_set, e, ht]
          · intro h
            exact List.mem_append_left _ (hx h)
      · simp only [c, if_false]
        exact ⟨t, ht, hf, hs, hx⟩

theorem NotStopped_run {α : Type} (k : String) (p : Nat) (g : α) (evs : List (Event α))
    (r : Registry α) (hev : ∀ ev ∈ evs, ev.createOrTime k = true) (h : NotStopped r p g) :
    NotStopped (r.run evs) p g := by
  induction evs generalizing r with
  | nil => exact h
  | cons ev rest ih =>
    exact ih (r.step ev) (fun e he => hev e (List.mem_cons_of_mem ev he))
      (NotStopped_step r k p g ev (hev ev (List.mem_cons_self ev rest)) h)

/-- The timer a create allocates is armed with the callback of the call. -/
theorem NotStopped_created {α : Type} (r : Registry α) (k : String) (f : α) :
    NotStopped (CreatePodTimer r k f) r.timers.length f := by
  refine ⟨{ deadline := timerWhen r.now (wrapInt64 (r.podsTimer.LifeTime * Minute)), f := f,
            status := TimerStatus.armed }, ?_, rfl, ?_, ?_⟩
  · rw [CreatePodTimer_timers]
    simp
  · intro h; cases h
  · intro h; cases h

/-- Only creates allocate timers, one each. -/
theorem run_timers_length {α : Type} (evs : List (Event α)) (r : Registry α) :
    (r.run evs).timers.length = r.timers.length + (callbacks evs).length := by
  induction evs generalizing r with
  | nil => rfl
  | cons ev rest ih =>
    have e : r.run (ev :: rest) = (r.step ev).run rest := rfl
    rw [e, ih (r.step ev)]
    cases ev with
    | create k1 f =>
      have hl : (CreatePodTimer r k1 f).timers.length = r.timers.length + 1 := by
        rw [CreatePodTimer_timers]; simp
      show (CreatePodTimer r k1 f).timers.length + _ = _
      rw [hl]
      simp only [callbacks, List.filterMap_cons, Event.callback, List.length_cons]
      omega
    | stop k1 =>
      show (StopPodTimer r k1).timers.length + _ = _
      rw [StopPodTimer_length]
      simp only [callbacks, List.filterMap_cons, Event.callback]
    | advance d => simp only [callbacks, List.filterMap_cons, Event.callback]; rfl
    | fire q =>
      show (r.fire q).1.timers.length + _ = _
      rw [fire_length]
      simp only [callbacks, List.filterMap_cons, Event.callback]

/-- In a history of creates, delays and firings, the timer of every create is
there at the end, in allocation order, and has not been stopped. -/
theorem created_NotStopped {α : Type} (k : String) (evs : List (Event α)) (r : Registry α)
    (hev : ∀ ev ∈ evs, ev.createOrTime k = true) (i : Nat) (g : α)
    (hi : (callbacks evs)[i]? = some g) :
    NotStopped (r.run evs) (r.timers.length + i) g := by
  induction evs generalizing r i with
  | nil => simp [callbacks] at hi
  | cons ev rest ih =>
    have hrest : ∀ e ∈ rest, e.createOrTime k = true :=
      fun e he => hev e (List.mem_cons_of_mem ev he)
    have e : r.run (ev :: rest) = (r.step ev).run rest := rfl
    rw [e]
    cases ev with
    | create k1 f =>
      have hl : (CreatePodTimer r k1 f).timers.length = r.timers.length + 1 := by
        rw [CreatePodTimer_timers]; simp
      simp only [callbacks, List.filterMap_cons, Event.callback] at hi
      cases i with
      | zero =>
        simp only [List.getElem?_cons_zero, Option.some.injEq] at hi
        subst hi
        exact NotStopped_run k _ _ rest _ hrest (NotStopped_created r k1 f)
      | succ j =>
        simp only [List.getElem?_cons_succ] at hi
        have h := ih (CreatePodTimer r k1 f) hrest j hi
        rw [hl] at h
        have hidx : r.timers.length + (j + 1) = r.timers.length + 1 + j := by omega
        rw [hidx]
        exact h
    | stop k1 =>
      have := hev (Event.stop k1) (List.mem_cons_self _ _)
      simp [Event.createOrTime] at this
    | advance d =>
      simp only [callbacks, List.filterMap_cons, Event.callback] at hi
      exact ih (r.advance d) hrest i hi
    | fire q =>
      simp only [callbacks, List.filterMap_cons, Event.callback] at hi
      have h := ih (r.fire q).1 hrest i hi
      rw [fire_length] at h
      exact h

theorem System_fire_registry {κ : Type} (env : Env κ) (sys : System κ) (q : Nat) :
    (System.fire env sys q).2.podsTimer = (sys.podsTimer.fire q).1 := by
  unfold System.fire
  rcases h : sys.podsTimer.fire q with ⟨reg, _ | d⟩ <;> rfl

/-! ## The lifecycle registry (claims C1, C2, C3) -/

/-- C1, counterexample. With a life time of one minute, `scan-alice` is created
twice, ten seconds apart; a minute after the second call the timer of the first
call is still armed and fires, so the callback of the replaced call executes,
before the one of the latest call. -/
theorem replaced_timer_still_fires :
    ((twiceCreated.advance 60000000000).run [Event.fire 0, Event.fire 1]).executed
      = [(0, "destroy-1"), (1, "destroy-2")] := by
  decide

/-- C1, as amended. Take any history made of `CreatePodTimer(k, f_1)`, ...,
`CreatePodTimer(k, f_(n-1))` calls for one key `k`, of delays and of timers fired
by the runtime, from any registry state, followed by `CreatePodTimer(k, f_n)`.
Then the map holds for `k` the timer of the latest call only, and no call has
disarmed anything: the timer of every call `f_i` is there and is not stopped; if
it has fired, `f_i` has been executed; if it is still armed, it fires and
executes `f_i` once the clock has reached its deadline. -/
theorem CreatePodTimer_keeps_earlier_timers {α : Type} (r : Registry α) (k : String)
    (evs : List (Event α)) (f : α) (hev : ∀ ev ∈ evs, ev.createOrTime k = true) :
    mapGet (CreatePodTimer (r.run evs) k f).podsTimer.Timers k
      = some (r.timers.length + (callbacks evs).length) ∧
    ∀ (i : Nat) (g : α), (callbacks evs ++ [f])[i]? = some g →
      ∃ t, (CreatePodTimer (r.run evs) k f).timers[r.timers.length + i]? = some t ∧
        t.f = g ∧ t.status ≠ TimerStatus.stopped ∧
        (t.status = TimerStatus.fired →
          (r.timers.length + i, g) ∈ (CreatePodTimer (r.run evs) k f).executed) ∧
        (t.status = TimerStatus.armed →
          ∀ n : Nat, t.deadline ≤ (CreatePodTimer (r.run evs) k f).now + n →
            (((CreatePodTimer (r.run evs) k f).advance n).fire (r.timers.length + i)).2
              = some g ∧
            (((CreatePodTimer (r.run evs) k f).advance n).fire
                (r.timers.length + i)).1.executed
              = (CreatePodTimer (r.run evs) k f).executed ++ [(r.timers.length + i, g)]) := by
  have hlen := run_timers_length evs r
  refine ⟨?_, ?_⟩
  · rw [CreatePodTimer_Timers, mapGet_mapAssign, hlen]
    simp
  · intro i g hi
    have hns : NotStopped (CreatePodTimer (r.run evs) k f) (r.timers.length + i) g := by
      by_cases hlt : i < (callbacks evs).length
      · rw [List.getElem?_append_left hlt] at hi
        have h := created_NotStopped k evs r hev i g hi
        have hc : (Event.create k f : Event α).createOrTime k = true := by
          simp [Event.createOrTime]
        exact NotStopped_step (r.run evs) k _ g (Event.create k f) hc h
      · have hge : (callbacks evs).length ≤ i := Nat.le_of_not_lt hlt
        rw [List.getElem?_append_right hge] at hi
        have hi0 : i - (callbacks evs).length = 0 := by
          by_contra hne
          have h1 : 1 ≤ i - (callbacks evs).length := Nat.one_le_iff_ne_zero.mpr hne
          rw [List.getElem?_eq_none (by simpa using h1)] at hi
          cases hi
        rw [hi0] at hi
        simp only [List.getElem?_cons_zero, Option.some.injEq] at hi
        subst hi
        have hidx : r.timers.length + i = (r.run evs).timers.length := by
          rw [hlen]; omega
        rw [hidx]
        exact NotStopped_created (r.run evs) k f
    obtain ⟨t, ht, hf, hs, hx⟩ := hns
    refine ⟨t, ht, hf, hs, hx, ?_⟩
    intro ha n hn
    have h := fire_armed ((CreatePodTimer (r.run evs) k f).advance n) (r.timers.length + i) t
      ht ha hn
    rw [hf] at h
    exact h

/-- C1, the amended statement at a concrete input: two calls for `scan-alice`
from the initial registry, ten seconds apart; fifty seconds after the second
call the timer of the first call fires and executes its callback. -/
theorem CreatePodTimer_keeps_earlier_timers_witness :
    (∀ ev ∈ [Event.create "scan-alice" "destroy-1", Event.advance 10000000000],
      ev.createOrTime "scan-alice" = true) ∧
    (((CreatePodTimer ((Registry.start { LifeTime := 1, Timers := [] }).run
          [Event.create "scan-alice" "destroy-1", Event.advance 10000000000])
        "scan-alice" "destroy-2").advance 50000000000).fire (0 + 0)).2 = some "destroy-1" := by
  refine ⟨by decide, ?_⟩
  obtain ⟨t, ht, _, _, _, hfire⟩ :=
    (CreatePodTimer_keeps_earlier_timers (Registry.start { LifeTime := 1, Timers := [] })
      "scan-alice" [Event.create "scan-alice" "destroy-1", Event.advance 10000000000]
      "destroy-2" (by decide)).2 0 "destroy-1" (by decide)
  have e : t = { deadline := 60000000000, f := "destroy-1", status := TimerStatus.armed } :=
    Option.some.inj (ht.symm.trans (by decide))
  subst e
  exact (hfire rfl 50000000000 (by decide)).1

/-- C2, counterexample. `scan-alice` is created twice, ten seconds apart, then
`StopPodTimer` for it completes before any deadline; a minute later the timer of
the first call fires all the same and its callback, registered under
`scan-alice`, executes, while the timer of the second call does not fire. -/
theorem stop_leaves_replaced_timer_armed :
    (((StopPodTimer twiceCreated "scan-alice").advance 60000000000).run
        [Event.fire 0, Event.fire 1]).executed = [(0, "destroy-1")] := by
  decide

/-- C2, as amended. In every reachable registry state, if the map holds timer `p`
for key `k` and `p` has not fired yet, then after `StopPodTimer(k)` timer `p`, the
one armed by the latest `CreatePodTimer(k, ...)`, never fires, whatever calls,
delays and fire attempts follow (a later `CreatePodTimer(k, ...)` arms a new
timer, not this one). Every other timer is left exactly as it was: one that was
armed, such as a timer armed under `k` by an earlier `CreatePodTimer` and since
overwritten in the map, is still armed after the call and fires, executing its
callback, once the clock has reached its deadline. -/
theorem StopPodTimer_disarms_current_timer {α : Type} (r : Registry α) (hr : Reachable r)
    (k : String) (p : Nat) (hk : mapGet r.podsTimer.Timers k = some p)
    (hnf : p ∉ r.firedTimers) :
    (∀ evs : List (Event α), p ∉ ((StopPodTimer r k).run evs).firedTimers) ∧
    ∀ (q : Nat) (t : Timer α), q ≠ p → r.timers[q]? = some t →
      (StopPodTimer r k).timers[q]? = some t ∧
      (t.status = TimerStatus.armed →
        ∀ n : Nat, t.deadline ≤ (StopPodTimer r k).now + n →
          (((StopPodTimer r k).advance n).fire q).2 = some t.f ∧
          (((StopPodTimer r k).advance n).fire q).1.executed
            = (StopPodTimer r k).executed ++ [(q, t.f)]) := by
  have hp : p < r.timers.length := Reachable_EntriesValid r hr k p hk
  have hd : Disarmed (StopPodTimer r k) p := StopPodTimer_disarms r k p hk hp
  have hn : p ∉ (StopPodTimer r k).firedTimers := by
    unfold Registry.firedTimers
    rw [StopPodTimer_executed]
    exact hnf
  refine ⟨fun evs => (Disarmed_run evs (StopPodTimer r k) p hd hn).2, ?_⟩
  intro q t hq ht
  have htp : r.timers[p]? = some r.timers[p] := List.getElem?_eq_getElem hp
  have hkeep : (StopPodTimer r k).timers[q]? = some t := by
    rw [StopPodTimer_timers r k p _ hk htp]
    simp [List.getElem?_set, Ne.symm hq, ht]
  refine ⟨hkeep, ?_⟩
  intro ha n hdl
  exact fire_armed ((StopPodTimer r k).advance n) q t hkeep ha hdl

/-- C2, the amended statement at a concrete input: `scan-alice` created twice,
ten seconds apart, then stopped; the timer of the second call never fires, the
timer of the first call fires fifty seconds later. -/
theorem StopPodTimer_disarms_current_timer_witness :
    mapGet twiceCreated.podsTimer.Timers "scan-alice" = some 1 ∧
    1 ∉ twiceCreated.firedTimers ∧
    1 ∉ ((StopPodTimer twiceCreated "scan-alice").run
          [Event.advance 60000000000, Event.fire 1, Event.fire 0]).firedTimers ∧
    (((StopPodTimer twiceCreated "scan-alice").advance 50000000000).fire 0).2
      = some "destroy-1" :=
  ⟨by decide, by decide,
   (StopPodTimer_disarms_current_timer twiceCreated
      ⟨1, [Event.create "scan-alice" "destroy-1", Event.advance 10000000000,
           Event.create "scan-alice" "destroy-2"], rfl⟩
      "scan-alice" 1 (by decide) (by decide)).1
      [Event.advance 60000000000, Event.fire 1, Event.fire 0],
   (((StopPodTimer_disarms_current_timer twiceCreated
      ⟨1, [Event.create "scan-alice" "destroy-1", Event.advance 10000000000,
           Event.create "scan-alice" "destroy-2"], rfl⟩
      "scan-alice" 1 (by decide) (by decide)).2 0
      { deadline := 60000000000, f := "destroy-1", status := TimerStatus.armed }
      (by decide) (by decide)).2 rfl 50000000000 (by decide)).1⟩

/-- C3, counterexample. After a successful `Run` for `scan-alice`: a successful
`Stop` leaves the entry of `scan-alice` in the map, held by a stopped timer; and
without the stop, once the timer has fired and its destroy callback has deleted
the pod, the entry is still in the map, held by a fired timer. -/
theorem entry_survives_stop_and_fire :
    mapGet (Handlers.Stop sampleEnv (Handlers.Run sampleEnv sampleSystem scanAlice).sys
        scanAlice).sys.podsTimer.podsTimer.Timers "scan-alice" = some 0 ∧
    (Handlers.Stop sampleEnv (Handlers.Run sampleEnv sampleSystem scanAlice).sys
        scanAlice).sys.podsTimer.timers.map (fun t => t.status) = [TimerStatus.stopped] ∧
    (System.fire sampleEnv
        ((Handlers.Run sampleEnv sampleSystem scanAlice).sys.advance 60000000000) 0).2.world.calls
      = [ApiCall.create podsDefault (Unstructured.withMeta (some "alice") (some "default") "Pod"),
         ApiCall.delete podsDefault "alice"] ∧
    mapGet (System.fire sampleEnv
        ((Handlers.Run sampleEnv sampleSystem scanAlice).sys.advance 60000000000) 0).2.podsTimer.podsTimer.Timers
      "scan-alice" = some 0 ∧
    (System.fire sampleEnv
        ((Handlers.Run sampleEnv sampleSystem scanAlice).sys.advance 60000000000)
          0).2.podsTimer.timers.map (fun t => t.status) = [TimerStatus.fired] := by
  decide

/-- C3, as amended. The map never loses an entry. In every reachable state of the
registry, an entry of the map designates an allocated timer (armed, stopped or
fired); `StopPodTimer(k)` leaves the map as it is and the timer of `k` not armed;
a timer that fires and runs its destroy callback leaves the map as it is, and the
timer of `k`, when it is the one that fired, is then in state fired; and whatever
happens later, `k` still has an entry. -/
theorem Timers_entries_persist {κ : Type} (env : Env κ) (sys : System κ)
    (hr : Reachable sys.podsTimer) (k : String) (p : Nat)
    (hk : mapGet sys.podsTimer.podsTimer.Timers k = some p) :
    p < sys.podsTimer.timers.length ∧
    (StopPodTimer sys.podsTimer k).podsTimer.Timers = sys.podsTimer.podsTimer.Timers ∧
    (∃ t, (StopPodTimer sys.podsTimer k).timers[p]? = some t ∧ t.status ≠ TimerStatus.armed) ∧
    (∀ q, (System.fire env sys q).2.podsTimer.podsTimer.Timers
        = sys.podsTimer.podsTimer.Timers) ∧
    ((sys.podsTimer.fire p).2.isSome →
      ∃ t, (System.fire env sys p).2.podsTimer.timers[p]? = some t ∧
        t.status = TimerStatus.fired) ∧
    ∀ evs, (mapGet (sys.podsTimer.run evs).podsTimer.Timers k).isSome := by
  have hp : p < sys.podsTimer.timers.length := Reachable_EntriesValid _ hr k p hk
  refine ⟨hp, ?_, StopPodTimer_disarms _ k p hk hp, ?_, ?_, ?_⟩
  · rw [StopPodTimer_podsTimer]
  · intro q
    rw [System_fire_registry, fire_podsTimer]
  · intro hf
    rw [System_fire_registry]
    have ht : sys.podsTimer.timers[p]? = some sys.podsTimer.timers[p] :=
      List.getElem?_eq_getElem hp
    unfold Registry.fire at hf ⊢
    rw [ht] at hf ⊢
    by_cases c : (sys.podsTimer.timers[p]).status = TimerStatus.armed ∧
        (sys.podsTimer.timers[p]).deadline ≤ sys.podsTimer.now
    · simp only [c, and_self, if_true]
      refine ⟨{ sys.podsTimer.timers[p] with status := TimerStatus.fired }, ?_, rfl⟩
      simp [List.getElem?_set, hp]
    · simp [c] at hf
  · intro evs
    apply key_kept_run
    rw [hk]
    rfl

/-- C3, the amended statement at a concrete input: the process after a
successful `Run` for `scan-alice`, one minute later. -/
theorem Timers_entries_persist_witness :
    mapGet ((Handlers.Run sampleEnv sampleSystem scanAlice).sys.advance
        60000000000).podsTimer.podsTimer.Timers "scan-alice" = some 0 ∧
    (∃ t, (System.fire sampleEnv
        ((Handlers.Run sampleEnv sampleSystem scanAlice).sys.advance 60000000000)
          0).2.podsTimer.timers[0]? = some t ∧ t.status = TimerStatus.fired) :=
  ⟨by decide,
   (Timers_entries_persist sampleEnv
      ((Handlers.Run sampleEnv sampleSystem scanAlice).sys.advance 60000000000)
      ⟨1, [Event.create "scan-alice"
            { manifest := podDoc "\x7b\x7b.ClientName\x7d\x7d",
              pvars := { ClientName := "alice", Flag := "" }, podName := "scan-alice" },
           Event.advance 60000000000], by decide⟩
      "scan-alice" 0 (by decide)).2.2.2.2.1 (by decide)⟩

/-! ## Lemmas on the decode loop -/

theorem decodeLoop_fatal {κ : Type} (env : Env κ) (action : Action κ) (err : DecodeError)
    (d : RawExtension) (ds : List RawExtension) (w : World κ) (e : Err)
    (h : resolve env d w = Except.error e) :
    decodeLoop env action err (d :: ds) w
      = { outcome := Outcome.fatal e, world := w, trace := [] } := by
  simp only [decodeLoop, h]

theorem decodeLoop_continue {κ : Type} (env : Env κ) (action : Action κ) (err : DecodeError)
    (d : RawExtension) (ds : List RawExtension) (w : World κ) (u : Unstructured)
    (dri : ResourceInterface) (h : resolve env d w = Except.ok (u, dri))
    (ha : (action u dri w).1 = Outcome.returned none) :
    decodeLoop env action err (d :: ds) w
      = { decodeLoop env action err ds (action u dri w).2 with
          trace := { doc := d, obj := u, dri := dri, pre := w, result := (action u dri w).1,
                     post := (action u dri w).2 } ::
                   (decodeLoop env action err ds (action u dri w).2).trace } := by
  simp only [decodeLoop, h, ha]

theorem decodeLoop_stop {κ : Type} (env : Env κ) (action : Action κ) (err : DecodeError)
    (d : RawExtension) (ds : List RawExtension) (w : World κ) (u : Unstructured)
    (dri : ResourceInterface) (h : resolve env d w = Except.ok (u, dri))
    (ha : (action u dri w).1 ≠ Outcome.returned none) :
    decodeLoop env action err (d :: ds) w
      = { outcome := (action u dri w).1, world := (action u dri w).2,
          trace := [{ doc := d, obj := u, dri := dri, pre := w, result := (action u dri w).1,
                      post := (action u dri w).2 }] } := by
  simp only [decodeLoop, h]

/-- Every recorded invocation is a call of `action` on the resolution of its
document in the world it started from. -/
theorem trace_genuine {κ : Type} (env : Env κ) (action : Action κ) (err : DecodeError)
    (docs : List RawExtension) (w : World κ) :
    ∀ c ∈ (decodeLoop env action err docs w).trace,
      resolve env c.doc c.pre = Except.ok (c.obj, c.dri) ∧
      action c.obj c.dri c.pre = (c.result, c.post) := by
  induction docs generalizing w with
  | nil => intro c hc; simp [decodeLoop] at hc
  | cons d ds ih =>
    intro c hc
    cases h : resolve env d w with
    | error e =>
      rw [decodeLoop_fatal env action err d ds w e h] at hc
      simp at hc
    | ok x =>
      obtain ⟨u, dri⟩ := x
      by_cases ha : (action u dri w).1 = Outcome.returned none
      · rw [decodeLoop_continue env action err d ds w u dri h ha] at hc
        simp only [List.mem_cons] at hc
        rcases hc with hc | hc
        · subst hc
          exact ⟨h, rfl⟩
        · exact ih _ c hc
      · rw [decodeLoop_stop env action err d ds w u dri h ha] at hc
        simp only [List.mem_singleton] at hc
        subst hc
        exact ⟨h, rfl⟩

theorem decodeLoop_err_irrelevant {κ : Type} (env : Env κ) (action : Action κ)
    (e1 e2 : DecodeError) (docs : List RawExtension) (w : World κ) :
    decodeLoop env action e1 docs w = decodeLoop env action e2 docs w := by
  induction docs generalizing w with
  | nil => rfl
  | cons d ds ih =>
    cases h : resolve env d w with
    | error e => rw [decodeLoop_fatal env action e1 d ds w e h, decodeLoop_fatal env action e2 d ds w e h]
    | ok x =>
      obtain ⟨u, dri⟩ := x
      by_cases ha : (action u dri w).1 = Outcome.returned none
      · rw [decodeLoop_continue env action e1 d ds w u dri h ha,
          decodeLoop_continue env action e2 d ds w u dri h ha, ih]
      · rw [decodeLoop_stop env action e1 d ds w u dri h ha,
          decodeLoop_stop env action e2 d ds w u dri h ha]

theorem resolve_no_mapping {κ : Type} (env : Env κ) (raw : RawExtension) (w : World κ)
    (obj u : Unstructured) (gvk : GroupVersionKind) (gr : APIGroupResources) (e : Err)
    (h1 : env.Decode raw = Except.ok (obj, gvk)) (h2 : env.ToUnstructured obj = Except.ok u)
    (h3 : env.GetAPIGroupResources w.cluster = Except.ok gr)
    (h4 : env.RESTMapping gr gvk.GroupKind gvk.Version = Except.error e) :
    resolve env raw w = Except.error e := by
  simp only [resolve, h1, h2, h3, h4]

theorem ApplyManifest_parsed {κ : Type} (env : Env κ) (manifest : String)
    (vars : PodVariables) (w : World κ) (tmpl : Template)
    (h : env.Parse manifest = Except.ok tmpl) :
    ApplyManifest env manifest vars w
      = ManifestAction env (env.Execute tmpl vars).1 (createAction env) w := by
  simp only [ApplyManifest, TeplateManifest, h]

theorem DeleteManifest_parsed {κ : Type} (env : Env κ) (manifest : String)
    (vars : PodVariables) (w : World κ) (tmpl : Template)
    (h : env.Parse manifest = Except.ok tmpl) :
    DeleteManifest env manifest vars w
      = ManifestAction env (env.Execute tmpl vars).1 (deleteAction env) w := by
  simp only [DeleteManifest, TeplateManifest, h]

/-! ## The manifest engine (claims C4, C5, C6) -/

/-- C4, counterexample. Applying the three documents `a`, `b`, `c`, where `b` is of
a kind the cluster does not serve: the create for `a` is issued, none for `c`,
and the call does not return an error to its caller: `log.Fatal` ends the
process with the resolution error of `b`. -/
theorem resolution_failure_does_not_return :
    (ApplyManifest sampleEnv manifestABC aliceVars emptyWorld).outcome
      = Outcome.fatal "no matches for kind \"Podd\" in version \"v1\"" ∧
    (ApplyManifest sampleEnv manifestABC aliceVars emptyWorld).world.calls
      = [ApiCall.create podsDefault (Unstructured.withMeta (some "a") (some "default") "Pod")] := by
  decide

/-- C4, as amended. For a manifest that renders to the documents `[a, b, c]`,
where `a` resolves and `b` decodes but its kind and version have no REST mapping:
`ApplyManifest` issues the create for `a` and no other request (none for `c`);
when that create succeeds, the resolution error of `b` is not returned: it goes to
`log.Fatal`, which ends the process; when that create fails, its error is
returned and `b` is never resolved. -/
theorem resolution_failure_is_fatal {κ : Type} (env : Env κ) (manifest : String)
    (vars : PodVariables) (w : World κ) (tmpl : Template) (a b c : RawExtension)
    (err : DecodeError) (uA objB uB : Unstructured) (driA : ResourceInterface)
    (gvkB : GroupVersionKind) (gr : APIGroupResources) (e : Err)
    (hP : env.Parse manifest = Except.ok tmpl)
    (hS : env.NewYAMLOrJSONDecoder (env.Execute tmpl vars).1 = { docs := [a, b, c], err := err })
    (hA : resolve env a w = Except.ok (uA, driA))
    (hB1 : env.Decode b = Except.ok (objB, gvkB))
    (hB2 : env.ToUnstructured objB = Except.ok uB)
    (hB3 : env.GetAPIGroupResources (env.Create driA uA w.cluster).2 = Except.ok gr)
    (hB4 : env.RESTMapping gr gvkB.GroupKind gvkB.Version = Except.error e) :
    (ApplyManifest env manifest vars w).world.calls = w.calls ++ [ApiCall.create driA uA] ∧
    (ApplyManifest env manifest vars w).outcome =
      (match (env.Create driA uA w.cluster).1 with
       | none => Outcome.fatal e
       | some ea => Outcome.returned (some ea)) := by
  have hrun : ApplyManifest env manifest vars w
      = decodeLoop env (createAction env) err [a, b, c] w := by
    rw [ApplyManifest_parsed env manifest vars w tmpl hP]
    simp only [ManifestAction, ManifestActionOn, hS]
  rw [hrun]
  cases hc : (env.Create driA uA w.cluster).1 with
  | none =>
    have ha : (createAction env uA driA w).1 = Outcome.returned none := by
      simp only [createAction, hc]
    have hb : resolve env b (createAction env uA driA w).2 = Except.error e :=
      resolve_no_mapping env b _ objB uB gvkB gr e hB1 hB2 hB3 hB4
    rw [decodeLoop_continue env _ err a [b, c] w uA driA hA ha,
      decodeLoop_fatal env _ err b [c] _ e hb]
    exact ⟨rfl, rfl⟩
  | some ea =>
    have ha : (createAction env uA driA w).1 ≠ Outcome.returned none := by
      simp only [createAction, hc]
      intro h
      cases h
    rw [decodeLoop_stop env _ err a [b, c] w uA driA hA ha]
    refine ⟨rfl, ?_⟩
    simp only [createAction, hc]

/-- C4, the amended statement at a concrete input: the sample manifest of three
documents applied to the empty sample cluster, where the create of `a` succeeds. -/
theorem resolution_failure_is_fatal_witness :
    sampleEnv.Parse manifestABC = Except.ok { text := manifestABC } ∧
    resolve sampleEnv (podDoc "a") emptyWorld
      = Except.ok (Unstructured.withMeta (some "a") (some "default") "Pod", podsDefault) ∧
    sampleEnv.RESTMapping sampleDiscovery (coreV1 "Podd").GroupKind (coreV1 "Podd").Version
      = Except.error "no matches for kind \"Podd\" in version \"v1\"" ∧
    (ApplyManifest sampleEnv manifestABC aliceVars emptyWorld).world.calls
      = emptyWorld.calls ++
        [ApiCall.create podsDefault (Unstructured.withMeta (some "a") (some "default") "Pod")] ∧
    (ApplyManifest sampleEnv manifestABC aliceVars emptyWorld).outcome
      = Outcome.fatal "no matches for kind \"Podd\" in version \"v1\"" :=
  ⟨by decide, by decide, by decide,
   resolution_failure_is_fatal sampleEnv manifestABC aliceVars
      emptyWorld { text := manifestABC } (podDoc "a") (poddDoc "b") (podDoc "c") DecodeError.EOF
      (Unstructured.withMeta (some "a") (some "default") "Pod")
      (Unstructured.withMeta (some "b") none "Podd")
      (Unstructured.withMeta (some "b") none "Podd") podsDefault (coreV1 "Podd")
      sampleDiscovery "no matches for kind \"Podd\" in version \"v1\""
      (by decide) (by decide) (by decide) (by decide) (by decide) (by decide) (by decide)⟩

/-- C5, counterexample. On a manifest that is not YAML the decoder returns an
error that is not the end-of-stream sentinel, and `ManifestAction`, `ApplyManifest`
and `DeleteManifest` all return `nil`. -/
theorem decode_error_returns_nil :
    sampleEnv.NewYAMLOrJSONDecoder brokenYaml
      = { docs := [], err := DecodeError.other "yaml: line 1: did not find expected node content" } ∧
    (ManifestAction sampleEnv brokenYaml (createAction sampleEnv) emptyWorld).outcome
      = Outcome.returned none ∧
    (ApplyManifest sampleEnv brokenYaml aliceVars emptyWorld).outcome
      = Outcome.returned none ∧
    (DeleteManifest sampleEnv brokenYaml aliceVars emptyWorld).outcome
      = Outcome.returned none := by
  decide

/-- C5, as amended. Whichever error the decoder returns, the end-of-stream
sentinel or any other, `ManifestAction` leaves the loop and returns `nil`: the
error is never returned. The run over a stream is the same as over the stream
with a clean end, and a stream whose first `Decode` fails returns `nil` having
done nothing. -/
theorem decode_error_ends_loop_with_nil {κ : Type} (env : Env κ) (action : Action κ)
    (docs : List RawExtension) (e : DecodeError) (w : World κ) :
    ManifestActionOn env action { docs := docs, err := e } w
      = ManifestActionOn env action { docs := docs, err := DecodeError.EOF } w ∧
    (ManifestActionOn env action { docs := [], err := e } w).outcome = Outcome.returned none ∧
    (ManifestActionOn env action { docs := [], err := e } w).world = w ∧
    (ManifestActionOn env action { docs := [], err := e } w).trace = [] :=
  ⟨decodeLoop_err_irrelevant env action e DecodeError.EOF docs w, rfl, rfl, rfl⟩

/-- C6. For a manifest whose documents all decode and resolve, each in the world
in which the loop reaches it, and any per-document action: `ManifestAction` calls the action once on each document of
an initial segment `d_1 .. d_n` of the manifest, in manifest order, each call on
the resolution of its document and in the world the previous call left, nothing
else changing the world (no compensating operation); either every call returned
`nil`, the segment is the whole manifest and `nil` is returned, or the last call
is the first that did not return `nil` and exactly its result is returned. -/
theorem ManifestAction_applies_in_order {κ : Type} (env : Env κ) (action : Action κ)
    (docs : List RawExtension) (err : DecodeError) (w : World κ)
    (hres : resolvesAlong env action docs w = true) :
    ∃ n, n ≤ docs.length ∧
      (ManifestActionOn env action { docs := docs, err := err } w).trace.map (fun c => c.doc)
        = docs.take n ∧
      (∀ c ∈ (ManifestActionOn env action { docs := docs, err := err } w).trace,
        resolve env c.doc c.pre = Except.ok (c.obj, c.dri) ∧
        action c.obj c.dri c.pre = (c.result, c.post)) ∧
      Threaded w (ManifestActionOn env action { docs := docs, err := err } w).trace
        (ManifestActionOn env action { docs := docs, err := err } w).world ∧
      ((n = docs.length ∧
        (∀ c ∈ (ManifestActionOn env action { docs := docs, err := err } w).trace,
          c.result = Outcome.returned none) ∧
        (ManifestActionOn env action { docs := docs, err := err } w).outcome
          = Outcome.returned none) ∨
       (∃ init c,
        (ManifestActionOn env action { docs := docs, err := err } w).trace = init ++ [c] ∧
        (∀ c1 ∈ init, c1.result = Outcome.returned none) ∧
        c.result ≠ Outcome.returned none ∧
        (ManifestActionOn env action { docs := docs, err := err } w).outcome = c.result)) := by
  show ∃ n, n ≤ docs.length ∧
      (decodeLoop env action err docs w).trace.map (fun c => c.doc) = docs.take n ∧
      (∀ c ∈ (decodeLoop env action err docs w).trace,
        resolve env c.doc c.pre = Except.ok (c.obj, c.dri) ∧
        action c.obj c.dri c.pre = (c.result, c.post)) ∧
      Threaded w (decodeLoop env action err docs w).trace (decodeLoop env action err docs w).world ∧
      ((n = docs.length ∧
        (∀ c ∈ (decodeLoop env action err docs w).trace, c.result = Outcome.returned none) ∧
        (decodeLoop env action err docs w).outcome = Outcome.returned none) ∨
       (∃ init c,
        (decodeLoop env action err docs w).trace = init ++ [c] ∧
        (∀ c1 ∈ init, c1.result = Outcome.returned none) ∧
        c.result ≠ Outcome.returned none ∧
        (decodeLoop env action err docs w).outcome = c.result))
  induction docs generalizing w with
  | nil =>
    refine ⟨0, Nat.le_refl _, rfl, ?_, rfl, Or.inl ⟨rfl, ?_, rfl⟩⟩
    · intro c hc; simp [decodeLoop] at hc
    · intro c hc; simp [decodeLoop] at hc
  | cons d ds ih =>
    cases hx : resolve env d w with
    | error e => simp only [resolvesAlong, hx] at hres; cases hres
    | ok x =>
    obtain ⟨u, dri⟩ := x
    have hgen := trace_genuine env action err (d :: ds) w
    by_cases ha : (action u dri w).1 = Outcome.returned none
    · have hrest : resolvesAlong env action ds (action u dri w).2 = true := by
        simp only [resolvesAlong, hx, ha, if_true] at hres
        exact hres
      obtain ⟨n, hn, hdocs, _, hthr, hout⟩ := ih (action u dri w).2 hrest
      refine ⟨n + 1, ?_, ?_, hgen, ?_, ?_⟩
      · simp only [List.length_cons]; omega
      · rw [decodeLoop_continue env action err d ds w u dri hx ha]
        simp only [List.map_cons, List.take_succ_cons, hdocs]
      · rw [decodeLoop_continue env action err d ds w u dri hx ha]
        exact ⟨rfl, hthr⟩
      · rw [decodeLoop_continue env action err d ds w u dri hx ha]
        rcases hout with ⟨hlen, hall, ho⟩ | ⟨init, c, htr, hall, hc, ho⟩
        · left
          refine ⟨by simp only [List.length_cons, hlen], ?_, ho⟩
          intro c hc
          simp only [List.mem_cons] at hc
          rcases hc with hc | hc
          · subst hc; exact ha
          · exact hall c hc
        · right
          refine ⟨({ doc := d, obj := u, dri := dri, pre := w, result := (action u dri w).1,
                     post := (action u dri w).2 } : Invocation κ) :: init, c, ?_, ?_, hc, ho⟩
          · simp only [htr, List.cons_append]
          · intro c1 hc1
            simp only [List.mem_cons] at hc1
            rcases hc1 with hc1 | hc1
            · subst hc1; exact ha
            · exact hall c1 hc1
    · refine ⟨1, ?_, ?_, hgen, ?_, ?_⟩
      · simp only [List.length_cons]; omega
      · rw [decodeLoop_stop env action err d ds w u dri hx ha]
        simp
      · rw [decodeLoop_stop env action err d ds w u dri hx ha]
        exact ⟨rfl, rfl⟩
      · rw [decodeLoop_stop env action err d ds w u dri hx ha]
        right
        refine ⟨[], _, rfl, ?_, ha, rfl⟩
        intro c1 hc1
        simp at hc1

/-- C6, at a concrete input: the create action over the definition of `Lab`
followed by a `Lab` on the empty sample cluster; the second document resolves
only once the first has been created. -/
theorem ManifestAction_applies_in_order_witness :
    resolve sampleEnv labDoc emptyWorld
      = Except.error "no matches for kind \"Lab\" in version \"v1\"" ∧
    resolvesAlong sampleEnv (createAction sampleEnv) [crdDoc, labDoc] emptyWorld = true ∧
    ∃ n, n ≤ [crdDoc, labDoc].length ∧
      (ManifestActionOn sampleEnv (createAction sampleEnv)
          { docs := [crdDoc, labDoc], err := DecodeError.EOF } emptyWorld).trace.map
        (fun c => c.doc) = [crdDoc, labDoc].take n :=
  ⟨by decide, by decide,
   (ManifestAction_applies_in_order sampleEnv (createAction sampleEnv)
      [crdDoc, labDoc] DecodeError.EOF emptyWorld (by decide)).imp
     (fun _ h => ⟨h.1, h.2.1⟩)⟩

/-! ## The request handlers (claim C7) -/

/-- C7. For a request that decodes and whose template is fetched: if
`ApplyManifest` returns an error, `Handlers.Run` answers with the text of the
error and leaves the registry (map, timers, clock) as it was, registering no
timer; if `DeleteManifest` returns an error, `Handlers.Stop` answers with the
text of the error and leaves the registry as it was, so a timer armed for the key
`task + "-" + client` is still in the map and still armed. -/
theorem failed_request_keeps_registry {κ : Type} (env : Env κ) (sys : System κ)
    (body : String) (req : Request) (manifest : String) (e : Err)
    (hreq : env.decodeRequest body = Except.ok req)
    (hcfg : GetConfig env req.TaskName = Except.ok manifest) :
    ((ApplyManifest env manifest { ClientName := req.ClientName, Flag := req.Flag }
        sys.world).outcome = Outcome.returned (some e) →
      (Handlers.Run env sys body).outcome = HandlerOutcome.responded { Message := e } ∧
      (Handlers.Run env sys body).sys.podsTimer = sys.podsTimer) ∧
    ((DeleteManifest env manifest { ClientName := req.ClientName, Flag := req.Flag }
        sys.world).outcome = Outcome.returned (some e) →
      (Handlers.Stop env sys body).outcome = HandlerOutcome.responded { Message := e } ∧
      (Handlers.Stop env sys body).sys.podsTimer = sys.podsTimer ∧
      ∀ p t, mapGet sys.podsTimer.podsTimer.Timers (req.TaskName ++ "-" ++ req.ClientName)
            = some p →
          sys.podsTimer.timers[p]? = some t → t.status = TimerStatus.armed →
        mapGet (Handlers.Stop env sys body).sys.podsTimer.podsTimer.Timers
            (req.TaskName ++ "-" ++ req.ClientName) = some p ∧
        ∃ t1, (Handlers.Stop env sys body).sys.podsTimer.timers[p]? = some t1 ∧
          t1.status = TimerStatus.armed) := by
  constructor
  · intro h
    simp only [Handlers.Run, hreq, hcfg, h]
    exact ⟨trivial, trivial⟩
  · intro h
    have hs : (Handlers.Stop env sys body).sys.podsTimer = sys.podsTimer := by
      simp only [Handlers.Stop, hreq, hcfg, h]
    refine ⟨?_, hs, ?_⟩
    · simp only [Handlers.Stop, hreq, hcfg, h]
    · intro p t hp ht ha
      rw [hs]
      exact ⟨hp, t, ht, ha⟩

/-- C7, at concrete inputs: a second `Run` for `scan-alice` while the pod exists
(the create fails), and a `Stop` for `scan-alice` while the timer is armed and the
pod is gone (the delete fails). -/
theorem failed_request_keeps_registry_witness :
    (Handlers.Run sampleEnv (Handlers.Run sampleEnv sampleSystem scanAlice).sys
        scanAlice).outcome
      = HandlerOutcome.responded { Message := "pods \"alice\" already exists" } ∧
    (Handlers.Run sampleEnv (Handlers.Run sampleEnv sampleSystem scanAlice).sys
        scanAlice).sys.podsTimer
      = (Handlers.Run sampleEnv sampleSystem scanAlice).sys.podsTimer ∧
    (Handlers.Stop sampleEnv orphanedTimerSystem scanAlice).outcome
      = HandlerOutcome.responded { Message := "pods \"alice\" not found" } ∧
    ∃ t1, (Handlers.Stop sampleEnv orphanedTimerSystem scanAlice).sys.podsTimer.timers[0]?
        = some t1 ∧ t1.status = TimerStatus.armed :=
  ⟨((failed_request_keeps_registry sampleEnv (Handlers.Run sampleEnv sampleSystem scanAlice).sys
        scanAlice { ClientName := "alice", TaskName := "scan", Flag := "" }
        (podDoc "\x7b\x7b.ClientName\x7d\x7d") "pods \"alice\" already exists"
        (by decide) (by decide)).1 (by decide)).1,
   ((failed_request_keeps_registry sampleEnv (Handlers.Run sampleEnv sampleSystem scanAlice).sys
        scanAlice { ClientName := "alice", TaskName := "scan", Flag := "" }
        (podDoc "\x7b\x7b.ClientName\x7d\x7d") "pods \"alice\" already exists"
        (by decide) (by decide)).1 (by decide)).2,
   ((failed_request_keeps_registry sampleEnv orphanedTimerSystem
        scanAlice { ClientName := "alice", TaskName := "scan", Flag := "" }
        (podDoc "\x7b\x7b.ClientName\x7d\x7d") "pods \"alice\" not found"
        (by decide) (by decide)).2 (by decide)).1,
   (((failed_request_keeps_registry sampleEnv orphanedTimerSystem
        scanAlice { ClientName := "alice", TaskName := "scan", Flag := "" }
        (podDoc "\x7b\x7b.ClientName\x7d\x7d") "pods \"alice\" not found"
        (by decide) (by decide)).2 (by decide)).2.2 0
        { deadline := 60000000000,
          f := { manifest := podDoc "\x7b\x7b.ClientName\x7d\x7d", pvars := aliceVars,
                 podName := "scan-alice" },
          status := TimerStatus.armed }
        (by decide) (by decide) rfl).2⟩

/-! ## Namespace defaulting (claim C8) -/

/-- C9, counterexample. Executing the two-pod template fails on the unknown
field of the second pod; the text written up to the failure is passed on as the
manifest all the same, and `ApplyManifest` issues the create for the first pod
(and one for the cut-off second document, which the cluster rejects). -/
theorem partial_render_is_applied :
    (sampleEnv.Execute { text := templateHalf } aliceVars).2
      = some "can't evaluate field Missing in type main.PodVariables" ∧
    (TeplateManifest sampleEnv templateHalf aliceVars emptyWorld).1
      = Except.ok (podDoc "alice" ++ "---\n" ++ namelessDoc) ∧
    (ApplyManifest sampleEnv templateHalf aliceVars emptyWorld).world.calls
      = [ApiCall.create podsDefault (Unstructured.withMeta (some "alice") (some "default") "Pod"),
         ApiCall.create podsDefault (Unstructured.withMeta none (some "default") "Pod")] ∧
    (ApplyManifest sampleEnv templateHalf aliceVars emptyWorld).world.cluster
      = [(podsDefault, "alice")] := by
  decide

/-- C9, as amended. When the template fails to parse, `TeplateManifest` logs the
error and panics executing the nil template: no manifest text reaches
`ManifestAction`, and `ApplyManifest` and `DeleteManifest` end in that panic
having issued no create or delete. When the template parses, the error of
`Execute` is dropped: whatever text was written to the buffer, complete or cut
short by a failure part-way, is the manifest `ApplyManifest` and `DeleteManifest`
run `ManifestAction` on. -/
theorem render_failure_behaviour {κ : Type} (env : Env κ) (manifest : String)
    (vars : PodVariables) (w : World κ) :
    (∀ e, env.Parse manifest = Except.error e →
      (∃ p, (TeplateManifest env manifest vars w).1 = Except.error p ∧
        (ApplyManifest env manifest vars w).outcome = Outcome.panicked p ∧
        (DeleteManifest env manifest vars w).outcome = Outcome.panicked p) ∧
      (TeplateManifest env manifest vars w).2.log = w.log ++ [e] ∧
      (ApplyManifest env manifest vars w).trace = [] ∧
      (ApplyManifest env manifest vars w).world.calls = w.calls ∧
      (ApplyManifest env manifest vars w).world.cluster = w.cluster ∧
      (DeleteManifest env manifest vars w).trace = [] ∧
      (DeleteManifest env manifest vars w).world.calls = w.calls ∧
      (DeleteManifest env manifest vars w).world.cluster = w.cluster) ∧
    (∀ tmpl, env.Parse manifest = Except.ok tmpl →
      TeplateManifest env manifest vars w = (Except.ok (env.Execute tmpl vars).1, w) ∧
      ApplyManifest env manifest vars w
        = ManifestAction env (env.Execute tmpl vars).1 (createAction env) w ∧
      DeleteManifest env manifest vars w
        = ManifestAction env (env.Execute tmpl vars).1 (deleteAction env) w) := by
  constructor
  · intro e h
    have hT : TeplateManifest env manifest vars w
        = (Except.error "runtime error: invalid memory address or nil pointer dereference",
           { w with log := w.log ++ [e] }) := by
      simp only [TeplateManifest, h]
    have hA : ApplyManifest env manifest vars w
        = { outcome := Outcome.panicked
              "runtime error: invalid memory address or nil pointer dereference",
            world := { w with log := w.log ++ [e] }, trace := [] } := by
      simp only [ApplyManifest, hT]
    have hD : DeleteManifest env manifest vars w
        = { outcome := Outcome.panicked
              "runtime error: invalid memory address or nil pointer dereference",
            world := { w with log := w.log ++ [e] }, trace := [] } := by
      simp only [DeleteManifest, hT]
    rw [hT, hA, hD]
    exact ⟨⟨_, rfl, rfl, rfl⟩, rfl, rfl, rfl, rfl, rfl, rfl, rfl⟩
  · intro tmpl h
    refine ⟨?_, ApplyManifest_parsed env manifest vars w tmpl h,
      DeleteManifest_parsed env manifest vars w tmpl h⟩
    simp only [TeplateManifest, h]

/-- C9, the amended statement at concrete inputs: a template with an action left
open, and the two-pod template whose execution fails part-way. -/
theorem render_failure_behaviour_witness :
    sampleEnv.Parse templateOpen = Except.error "template: task:4: unclosed action" ∧
    (ApplyManifest sampleEnv templateOpen aliceVars emptyWorld).world.calls = emptyWorld.calls ∧
    sampleEnv.Parse templateHalf = Except.ok { text := templateHalf } ∧
    ApplyManifest sampleEnv templateHalf aliceVars emptyWorld
      = ManifestAction sampleEnv (sampleEnv.Execute { text := templateHalf } aliceVars).1
          (createAction sampleEnv) emptyWorld :=
  ⟨by decide,
   ((render_failure_behaviour sampleEnv templateOpen aliceVars emptyWorld).1
      "template: task:4: unclosed action" (by decide)).2.2.2.1,
   by decide,
   ((render_failure_behaviour sampleEnv templateHalf aliceVars emptyWorld).2
      { text := templateHalf } (by decide)).2.1⟩

end K3sApi
